import Mathlib

/-!
# Hellcat XUI Sentinel: the traffic-enforcement loop of `main.go`

A shallow embedding of `monitorServer` (main.go, lines 245-312) and of the
helpers it calls, followed by the properties of the usage ledger, the ban
registry and the cooldown restore.

Conventions of the embedding.

* Go `uint64` values are natural numbers; every arithmetic operation of the
  source is written with an explicit reduction modulo `2 ^ 64`.
* Go `int` / `int64` values are integers.
* A Go `map[string]V` is either the nil map or an allocated map.  Indexing a
  nil map or a missing key yields the zero value of `V`; assigning to an entry
  of a nil map is a run-time panic, which ends the process.  `loadPrevUsage`
  and `loadBanned` (main.go, lines 92-115) return the nil map when the file
  holds the JSON value `null`.
* The remote panel is an external collaborator.  The outcome of the `n`-th
  network call of a run is read from an arbitrary environment `Env`, and the
  state carries the number of calls made so far.  Quantifying over all
  environments covers every pattern of successes and failures.
* Everything observable that the loop does (panel calls with their outcome,
  file saves, log lines, sleeps, spawned goroutines, the panic) is returned
  as a list of events in program order.
* The loop body is given twice.  `processEntry`, `processStats` and
  `pollIteration` execute one goroutine without interruption.  `monitorStep`
  splits the same code at every access to the shared maps and every blocking
  call, and `sysStep` / `runSchedule` interleave the steps of all goroutines
  (main.go, lines 76-78, starts one monitor per server on the same unlocked
  maps).  `pollIteration_refines` relates the two.
-/

namespace Sentinel

/-! ## Data model -/

/-- Go struct `ServerConfig`. -/
structure ServerConfig where
  BaseURL : String
  Username : String
  Password : String
  InboundID : Int
deriving DecidableEq, Repr

/-- Go struct `ClientStat`; `Up` and `Down` are `uint64`. -/
structure ClientStat where
  ID : Int
  Email : String
  Up : Nat
  Down : Nat
  Enable : Bool
  ExpiryTime : Int
deriving DecidableEq, Repr

/-- One element of `ListResponse.Obj`. -/
structure Inbound where
  ID : Int
  ClientStats : List ClientStat
  Settings : String
deriving DecidableEq, Repr

/-- Go struct `ListResponse`. -/
structure ListResponse where
  Success : Bool
  Msg : String
  Obj : List Inbound
deriving DecidableEq, Repr

/-- One element of the anonymous struct `parsed.Clients` of `monitorServer`. -/
structure SettingsClient where
  Email : String
  ID : String
deriving DecidableEq, Repr

/-! ## Unsigned 64-bit arithmetic -/

/-- Go `a + b` on `uint64`. -/
def add64 (a b : Nat) : Nat := (a + b) % 2 ^ 64

/-- Go `a - b` on `uint64`. -/
def sub64 (a b : Nat) : Nat := (a + (2 ^ 64 - b % 2 ^ 64)) % 2 ^ 64

/-- Go `a * b` on `uint64`. -/
def mul64 (a b : Nat) : Nat := (a * b) % 2 ^ 64

/-- The value `init` stores in `thresholdBytes`: `*mb * 1024 * 1024`
(main.go, line 61), for the value `mb` of the `-threshold` flag. -/
def initThresholdBytes (mb : Nat) : Nat := mul64 (mul64 mb 1024) 1024

/-- Default of the `-threshold` flag (main.go, line 58). -/
def defaultThresholdMB : Nat := 10

/-! ## Go maps -/

/-- A Go `map[string]V`: the nil map, or an allocated map with its entries. -/
inductive GoMap (V : Type) where
  | nil : GoMap V
  | alloc (entries : String → Option V) : GoMap V

/-- The empty map literal `map[string]V{}`. -/
def GoMap.empty {V : Type} : GoMap V := GoMap.alloc (fun _ => none)

/-- Whether the map is the nil map. -/
def GoMap.isNil {V : Type} : GoMap V → Bool
  | GoMap.nil => true
  | GoMap.alloc _ => false

/-- The entry stored under `k`, if any; the nil map stores nothing. -/
def GoMap.lookup {V : Type} : GoMap V → String → Option V
  | GoMap.nil, _ => none
  | GoMap.alloc f, k => f k

/-- Go `m[k]` as an expression, with `zero` the zero value of `V`. -/
def GoMap.index {V : Type} (m : GoMap V) (zero : V) (k : String) : V := (m.lookup k).getD zero

/-- The allocated map `m` after `k` has been set to `v`. -/
def GoMap.put {V : Type} : GoMap V → String → V → GoMap V
  | GoMap.nil, _, _ => GoMap.nil
  | GoMap.alloc f, k, v => GoMap.alloc (fun k' => if k' = k then some v else f k')

/-- Go `m[k] = v`: the updated map, or `none` for the panic
`assignment to entry in nil map`. -/
def GoMap.assign {V : Type} (m : GoMap V) (k : String) (v : V) : Option (GoMap V) :=
  if m.isNil = true then none else some (m.put k v)

/-! ## Ledger key: `fmt.Sprintf("%s|%s|%d", name, c.Email, c.ID)` -/

/-- The digit loop of decimal formatting: the last digit is pushed in front
of the digits already produced until the number is below ten.  The first
argument bounds the number of rounds. -/
def decimalDigitsAux : Nat → Nat → List Char → List Char
  | 0, _, acc => acc
  | fuel + 1, n, acc =>
    if n < 10 then Nat.digitChar n :: acc
    else decimalDigitsAux fuel (n / 10) (Nat.digitChar (n % 10) :: acc)

/-- The decimal digits of a natural number, most significant first; `0` prints
as `0`. -/
def decimalDigits (n : Nat) : List Char := decimalDigitsAux (n + 1) n []

/-- The verb `%d` applied to a Go `int`: an optional minus sign followed by the
decimal digits of the magnitude. -/
def formatInt (i : Int) : List Char :=
  if i < 0 then '-' :: decimalDigits i.natAbs else decimalDigits i.natAbs

/-- The verb string `"%s|%s|%d"` applied to `name`, `email`, `id`
(main.go, line 282). -/
def ledgerKey (name email : String) (id : Int) : String :=
  String.mk (name.data ++ '|' :: (email.data ++ '|' :: formatInt id))

/-! ## Environment, state and events -/

/-- Everything `monitorServer` reads but does not compute: the two flags, the
JSON decoder applied to the settings blob, and the outcome of the `n`-th
network call (`true` for a `nil` error). -/
structure Env where
  thresholdBytes : Nat
  intervalSeconds : Int
  unmarshalSettings : String → Option (List SettingsClient)
  loginOk : Nat → Bool
  listResponse : Nat → Option ListResponse
  changeOk : Nat → Bool
  restartOk : Nat → Bool

/-- The mutable state shared by the goroutines: the ledger `prev`, the global
`bannedUsers`, the number of network calls made so far, and whether the
process has died of a run-time panic. -/
structure State where
  prev : GoMap Nat
  bannedUsers : GoMap Bool
  clock : Nat
  crashed : Bool

/-- Observable effects, in program order. -/
inductive Event where
  | login (cfg : ServerConfig) (ok : Bool)
  | fetchClientStats (cfg : ServerConfig) (ok : Bool)
  | changeClientEnable (cfg : ServerConfig) (uuid : String) (stat : ClientStat)
      (enable : Bool) (ok : Bool)
  | restartPanel (cfg : ServerConfig) (ok : Bool)
  | saveBanned
  | savePrevUsage
  | spawnRestore (cfg : ServerConfig) (u : String) (cc : ClientStat)
  | sleep (seconds : Int)
  | logLoginErr (name : String)
  | logFetchErr (name : String)
  | logParseErr (name : String)
  | logLoadedUUID (name email id : String)
  | logDelta (name email : String) (id : Int) (delta : Nat)
  | logExceeded (name email : String)
  | logNoUUID (name email : String)
  | logDisableErr (name : String)
  | logBanned (name email : String)
  | panic
deriving DecidableEq, Repr

/-! ## The operations of `main.go`, one goroutine without interruption -/

/-- The part of `fetchClientStats` after the HTTP exchange (main.go, lines
163-175); `resp` is `none` when the request or the JSON decoding failed. -/
def fetchClientStats (resp : Option ListResponse) (cfg : ServerConfig) :
    Option (List ClientStat × String) :=
  match resp with
  | none => none
  | some lr =>
    if !lr.Success then none
    else
      match lr.Obj.find? (fun inb => inb.ID == cfg.InboundID) with
      | some inb => some (inb.ClientStats, inb.Settings)
      | none => none

/-- The loop of main.go, lines 271-274, filling `uuidMap` from the parsed
clients; `uuidMap` is the allocated map of line 261, so the writes succeed. -/
def loadUUIDs (name : String) : GoMap String → List SettingsClient → GoMap String × List Event
  | m, [] => (m, [])
  | m, cl :: rest =>
    let r := loadUUIDs name (m.put cl.Email cl.ID) rest
    (r.1, Event.logLoadedUUID name cl.Email cl.ID :: r.2)

/-- Lines 261-275 of main.go: the per-cycle uuid map built from the settings
blob. -/
def buildUUIDMap (env : Env) (name settingsJSON : String) : GoMap String × List Event :=
  match env.unmarshalSettings settingsJSON with
  | none => (GoMap.empty, [Event.logParseErr name])
  | some clients => loadUUIDs name GoMap.empty clients

/-- The `total - prev[key]` of main.go, lines 281-283. -/
def entryDelta (name : String) (prev : GoMap Nat) (c : ClientStat) : Nat :=
  sub64 (add64 c.Up c.Down) (prev.index 0 (ledgerKey name c.Email c.ID))

/-- The body of the `if delta > thresholdBytes` block (main.go, lines 287-305).
The last component tells whether the write of line 296 panicked. -/
def banPolicy (env : Env) (name : String) (cfg : ServerConfig) (uuidMap : GoMap String)
    (s : State) (c : ClientStat) : State × List Event × Bool :=
  let uuid := uuidMap.index "" c.Email
  if uuid = "" then
    (s, [Event.logExceeded name c.Email, Event.logNoUUID name c.Email], false)
  else if env.changeOk s.clock = false then
    ({ s with clock := s.clock + 1 },
      [Event.logExceeded name c.Email,
       Event.changeClientEnable cfg uuid c false false,
       Event.logDisableErr name,
       Event.spawnRestore cfg uuid c], false)
  else
    match s.bannedUsers.assign c.Email true with
    | none =>
      ({ s with clock := s.clock + 1, crashed := true },
        [Event.logExceeded name c.Email,
         Event.changeClientEnable cfg uuid c false true,
         Event.logBanned name c.Email,
         Event.panic], true)
    | some banned =>
      ({ s with clock := s.clock + 2, bannedUsers := banned },
        [Event.logExceeded name c.Email,
         Event.changeClientEnable cfg uuid c false true,
         Event.logBanned name c.Email,
         Event.saveBanned,
         Event.restartPanel cfg (env.restartOk (s.clock + 1)),
         Event.spawnRestore cfg uuid c], false)

/-- The statement `prev[key] = total` of main.go, line 307, after the events
`evs` of the entry. -/
def recordTotal (s : State) (key : String) (total : Nat) (evs : List Event) :
    State × List Event :=
  match s.prev.assign key total with
  | none => ({ s with crashed := true }, evs ++ [Event.panic])
  | some p => ({ s with prev := p }, evs)

/-- One pass through the body of `for _, c := range stats` (main.go, lines
277-308). -/
def processEntry (env : Env) (name : String) (cfg : ServerConfig) (uuidMap : GoMap String)
    (s : State) (c : ClientStat) : State × List Event :=
  if (!c.Enable || s.bannedUsers.index false c.Email) = true then (s, [])
  else
    let total := add64 c.Up c.Down
    let key := ledgerKey name c.Email c.ID
    let delta := sub64 total (s.prev.index 0 key)
    if delta > env.thresholdBytes then
      let r := banPolicy env name cfg uuidMap s c
      if r.2.2 = true then (r.1, Event.logDelta name c.Email c.ID delta :: r.2.1)
      else recordTotal r.1 key total (Event.logDelta name c.Email c.ID delta :: r.2.1)
    else recordTotal s key total [Event.logDelta name c.Email c.ID delta]

/-- The loop `for _, c := range stats` (main.go, lines 277-308); it ends early
when the process dies. -/
def processStats (env : Env) (name : String) (cfg : ServerConfig) (uuidMap : GoMap String) :
    State → List ClientStat → State × List Event
  | s, [] => (s, [])
  | s, c :: cs =>
    let r := processEntry env name cfg uuidMap s c
    if r.1.crashed = true then r
    else
      let r2 := processStats env name cfg uuidMap r.1 cs
      (r2.1, r.2 ++ r2.2)

/-- One iteration of the `for` loop of `monitorServer` (main.go, lines 247-311). -/
def pollIteration (env : Env) (name : String) (cfg : ServerConfig) (s : State) :
    State × List Event :=
  if env.loginOk s.clock = false then
    ({ s with clock := s.clock + 1 },
      [Event.login cfg false, Event.logLoginErr name, Event.sleep 10])
  else
    match fetchClientStats (env.listResponse (s.clock + 1)) cfg with
    | none =>
      ({ s with clock := s.clock + 2 },
        [Event.login cfg true, Event.fetchClientStats cfg false, Event.logFetchErr name,
         Event.sleep 10])
    | some (stats, settingsJSON) =>
      let u := buildUUIDMap env name settingsJSON
      let r := processStats env name cfg u.1 { s with clock := s.clock + 2 } stats
      if r.1.crashed = true then
        (r.1, [Event.login cfg true, Event.fetchClientStats cfg true] ++ u.2 ++ r.2)
      else
        (r.1,
          [Event.login cfg true, Event.fetchClientStats cfg true] ++ u.2 ++ r.2 ++
            [Event.savePrevUsage, Event.sleep env.intervalSeconds])

/-- The goroutine spawned at main.go, lines 300-304, from the moment its
one-hour sleep starts: `login`, then `changeClientEnable(..., true)`; both
results are discarded. -/
def restoreAction (env : Env) (cfg : ServerConfig) (u : String) (cc : ClientStat) (s : State) :
    State × List Event :=
  ({ s with clock := s.clock + 2 },
    [Event.sleep 3600, Event.login cfg (env.loginOk s.clock),
     Event.changeClientEnable cfg u cc true (env.changeOk (s.clock + 1))])

/-- A whole poll iteration of the monitor of one server, or a whole cooldown
restore, executed without interruption. -/
inductive Action where
  | poll (name : String) (cfg : ServerConfig)
  | restore (cfg : ServerConfig) (u : String) (cc : ClientStat)
deriving DecidableEq, Repr

/-- Effect of one uninterrupted action; a dead process does nothing. -/
def step (env : Env) (a : Action) (s : State) : State × List Event :=
  if s.crashed = true then (s, [])
  else
    match a with
    | Action.poll name cfg => pollIteration env name cfg s
    | Action.restore cfg u cc => restoreAction env cfg u cc s

/-! ## The same code in steps, and the goroutines interleaved -/

/-- Where a monitor goroutine stands inside `monitorServer`, with the local
variables it holds there: the uuid map of the cycle, the entry at hand, the
resolved identifier and the entries still to visit. -/
inductive Phase where
  | top
  | fetch
  | range (uuidMap : GoMap String) (rest : List ClientStat)
  | measure (uuidMap : GoMap String) (c : ClientStat) (rest : List ClientStat)
  | call (uuidMap : GoMap String) (uuid : String) (c : ClientStat) (rest : List ClientStat)
  | register (uuidMap : GoMap String) (uuid : String) (c : ClientStat) (rest : List ClientStat)
  | save (uuidMap : GoMap String) (uuid : String) (c : ClientStat) (rest : List ClientStat)
  | restart (uuidMap : GoMap String) (uuid : String) (c : ClientStat) (rest : List ClientStat)
  | spawn (uuidMap : GoMap String) (uuid : String) (c : ClientStat) (rest : List ClientStat)
  | record (uuidMap : GoMap String) (c : ClientStat) (rest : List ClientStat)

/-- A goroutine running `monitorServer(name, cfg, prev)`. -/
structure Monitor where
  name : String
  cfg : ServerConfig
  phase : Phase

/-- One step of a monitor: the code from its control point up to the next
access to a shared map or the next blocking call.

* `top`: `login` (line 248).
* `fetch`: `fetchClientStats` and the uuid map (lines 254-275).
* `range`: the test of line 278 on the next entry, or lines 309-310 at the end
  of the list.
* `measure`: lines 281-291, reading `prev[key]`.
* `call`: the disable call of line 292.
* `register`: lines 295-296, writing `bannedUsers`.
* `save`: line 297.  `restart`: line 298.  `spawn`: line 300.
* `record`: line 307, writing `prev`. -/
def monitorStep (env : Env) (m : Monitor) (s : State) : Monitor × State × List Event :=
  match m.phase with
  | Phase.top =>
    if env.loginOk s.clock = false then
      ({ m with phase := Phase.top }, { s with clock := s.clock + 1 },
        [Event.login m.cfg false, Event.logLoginErr m.name, Event.sleep 10])
    else
      ({ m with phase := Phase.fetch }, { s with clock := s.clock + 1 },
        [Event.login m.cfg true])
  | Phase.fetch =>
    match fetchClientStats (env.listResponse s.clock) m.cfg with
    | none =>
      ({ m with phase := Phase.top }, { s with clock := s.clock + 1 },
        [Event.fetchClientStats m.cfg false, Event.logFetchErr m.name, Event.sleep 10])
    | some (stats, settingsJSON) =>
      ({ m with phase := Phase.range (buildUUIDMap env m.name settingsJSON).1 stats },
        { s with clock := s.clock + 1 },
        Event.fetchClientStats m.cfg true :: (buildUUIDMap env m.name settingsJSON).2)
  | Phase.range _ [] =>
    ({ m with phase := Phase.top }, s,
      [Event.savePrevUsage, Event.sleep env.intervalSeconds])
  | Phase.range uuidMap (c :: rest) =>
    if (!c.Enable || s.bannedUsers.index false c.Email) = true then
      ({ m with phase := Phase.range uuidMap rest }, s, [])
    else
      ({ m with phase := Phase.measure uuidMap c rest }, s, [])
  | Phase.measure uuidMap c rest =>
    if entryDelta m.name s.prev c > env.thresholdBytes then
      if uuidMap.index "" c.Email = "" then
        ({ m with phase := Phase.record uuidMap c rest }, s,
          [Event.logDelta m.name c.Email c.ID (entryDelta m.name s.prev c),
           Event.logExceeded m.name c.Email, Event.logNoUUID m.name c.Email])
      else
        ({ m with phase := Phase.call uuidMap (uuidMap.index "" c.Email) c rest }, s,
          [Event.logDelta m.name c.Email c.ID (entryDelta m.name s.prev c),
           Event.logExceeded m.name c.Email])
    else
      ({ m with phase := Phase.record uuidMap c rest }, s,
        [Event.logDelta m.name c.Email c.ID (entryDelta m.name s.prev c)])
  | Phase.call uuidMap uuid c rest =>
    if env.changeOk s.clock = false then
      ({ m with phase := Phase.spawn uuidMap uuid c rest }, { s with clock := s.clock + 1 },
        [Event.changeClientEnable m.cfg uuid c false false, Event.logDisableErr m.name])
    else
      ({ m with phase := Phase.register uuidMap uuid c rest }, { s with clock := s.clock + 1 },
        [Event.changeClientEnable m.cfg uuid c false true])
  | Phase.register uuidMap uuid c rest =>
    match s.bannedUsers.assign c.Email true with
    | none => (m, { s with crashed := true }, [Event.logBanned m.name c.Email, Event.panic])
    | some banned =>
      ({ m with phase := Phase.save uuidMap uuid c rest }, { s with bannedUsers := banned },
        [Event.logBanned m.name c.Email])
  | Phase.save uuidMap uuid c rest =>
    ({ m with phase := Phase.restart uuidMap uuid c rest }, s, [Event.saveBanned])
  | Phase.restart uuidMap uuid c rest =>
    ({ m with phase := Phase.spawn uuidMap uuid c rest }, { s with clock := s.clock + 1 },
      [Event.restartPanel m.cfg (env.restartOk s.clock)])
  | Phase.spawn uuidMap uuid c rest =>
    ({ m with phase := Phase.record uuidMap c rest }, s, [Event.spawnRestore m.cfg uuid c])
  | Phase.record uuidMap c rest =>
    match s.prev.assign (ledgerKey m.name c.Email c.ID) (add64 c.Up c.Down) with
    | none => (m, { s with crashed := true }, [Event.panic])
    | some p => ({ m with phase := Phase.range uuidMap rest }, { s with prev := p }, [])

/-- The first `n` steps of a monitor that no other goroutine interrupts; the
steps stop when the process dies. -/
def monitorSteps (env : Env) : Nat → Monitor → State → Monitor × State × List Event
  | 0, m, s => (m, s, [])
  | n + 1, m, s =>
    if s.crashed = true then (m, s, [])
    else
      let r := monitorStep env m s
      let r2 := monitorSteps env n r.1 r.2.1
      (r2.1, r2.2.1, r.2.2 ++ r2.2.2)

/-- The monitor `m` started on the state `s` and left alone reaches `m'` and
`s'` after emitting `evs`. -/
def Reaches (env : Env) (m : Monitor) (s : State) (m' : Monitor) (s' : State)
    (evs : List Event) : Prop :=
  ∃ n, monitorSteps env n m s = (m', s', evs)

/-- A goroutine: a monitor, or the cooldown restore of main.go, lines 300-304,
with the number of its statements already executed (the sleep, the login, the
enable call). -/
inductive Thread where
  | monitor (m : Monitor)
  | restore (cfg : ServerConfig) (u : String) (cc : ClientStat) (done : Nat)

/-- One step of a goroutine. -/
def threadStep (env : Env) (t : Thread) (s : State) : Thread × State × List Event :=
  match t with
  | Thread.monitor m =>
    let r := monitorStep env m s
    (Thread.monitor r.1, r.2.1, r.2.2)
  | Thread.restore cfg u cc 0 => (Thread.restore cfg u cc 1, s, [Event.sleep 3600])
  | Thread.restore cfg u cc 1 =>
    (Thread.restore cfg u cc 2, { s with clock := s.clock + 1 },
      [Event.login cfg (env.loginOk s.clock)])
  | Thread.restore cfg u cc 2 =>
    (Thread.restore cfg u cc 3, { s with clock := s.clock + 1 },
      [Event.changeClientEnable cfg u cc true (env.changeOk s.clock)])
  | Thread.restore cfg u cc (n + 3) => (Thread.restore cfg u cc (n + 3), s, [])

/-- The goroutines started by the `go` statements among the events. -/
def spawned : List Event → List Thread
  | [] => []
  | Event.spawnRestore cfg u cc :: rest => Thread.restore cfg u cc 0 :: spawned rest
  | _ :: rest => spawned rest

/-- The process: the shared state and its goroutines. -/
structure System where
  shared : State
  threads : List Thread

/-- The process after `main` (lines 70-80) has started one monitor per entry of
the configuration, with the ledger and the registry read at start-up. -/
def startSystem (cfgs : List (String × ServerConfig)) (prev : GoMap Nat)
    (bannedUsers : GoMap Bool) : System :=
  { shared := { prev := prev, bannedUsers := bannedUsers, clock := 0, crashed := false },
    threads := cfgs.map (fun p => Thread.monitor { name := p.1, cfg := p.2, phase := Phase.top }) }

/-- The scheduler lets goroutine number `i` take one step; a dead process and
a missing goroutine do nothing. -/
def sysStep (env : Env) (i : Nat) (sys : System) : System × List Event :=
  if sys.shared.crashed = true then (sys, [])
  else
    match sys.threads[i]? with
    | none => (sys, [])
    | some t =>
      let r := threadStep env t sys.shared
      ({ shared := r.2.1, threads := sys.threads.set i r.1 ++ spawned r.2.2 }, r.2.2)

/-- The process under a schedule: the goroutine numbers in the order in which
they step, with the events of all steps in order. -/
def runSchedule (env : Env) : List Nat → System → System × List Event
  | [], sys => (sys, [])
  | i :: rest, sys =>
    let r := sysStep env i sys
    let r2 := runSchedule env rest r.1
    (r2.1, r.2 ++ r2.2)

/-! ## Predicates on events and states used in the statements -/

/-- A panel mutation or its bookkeeping: any `changeClientEnable` call, a
restart call, a registry save, or a spawned restore goroutine. -/
def Event.isEnforcement : Event → Bool
  | Event.changeClientEnable _ _ _ _ _ => true
  | Event.restartPanel _ _ => true
  | Event.saveBanned => true
  | Event.spawnRestore _ _ _ => true
  | _ => false

/-- The monitor has passed the test of line 278 on an entry with email `e` and
has not yet issued the disable call of line 292 for it. -/
def Phase.inFlight (e : String) : Phase → Bool
  | Phase.measure _ c _ => decide (c.Email = e)
  | Phase.call _ _ c _ => decide (c.Email = e)
  | _ => false

/-- The goroutine is a monitor in flight on `e`. -/
def Thread.inFlight (e : String) : Thread → Bool
  | Thread.monitor m => m.phase.inFlight e
  | Thread.restore _ _ _ _ => false

/-- What an uninterrupted stretch of execution from `s` to `s'` emitting `evs`
guarantees about the registry: an entry changes only by being set to `true`
for the email of a successful disable call of `evs`. -/
def RegistryOnly (s : State) (evs : List Event) (s' : State) : Prop :=
  ∀ k, s'.bannedUsers.lookup k = s.bannedUsers.lookup k ∨
    (s'.bannedUsers.lookup k = some true ∧
      ∃ cfg u c, c.Email = k ∧ Event.changeClientEnable cfg u c false true ∈ evs)

/-! ## Sample data for the concrete instances -/

/-- A server configuration whose inbound has ID 1. -/
def sampleCfg : ServerConfig :=
  { BaseURL := "https://panel.example/", Username := "admin", Password := "secret",
    InboundID := 1 }

/-- A second server, whose inbound also has ID 1. -/
def sampleCfg2 : ServerConfig :=
  { BaseURL := "https://other.example/", Username := "admin", Password := "secret",
    InboundID := 1 }

/-- An enabled account with numeric ID 7. -/
def sampleStat (email : String) (up down : Nat) : ClientStat :=
  { ID := 7, Email := email, Up := up, Down := down, Enable := true, ExpiryTime := 0 }

/-- The state at first start: empty ledger, empty registry, no call made. -/
def emptyState : State :=
  { prev := GoMap.empty, bannedUsers := GoMap.empty, clock := 0, crashed := false }

/-- The state after `prev_usage.json` held `null`: the ledger is the nil map. -/
def nilLedgerState : State :=
  { prev := GoMap.nil, bannedUsers := GoMap.empty, clock := 0, crashed := false }

/-- The state after `ban.json` held `null`: the registry is the nil map. -/
def nilRegistryState : State :=
  { prev := GoMap.empty, bannedUsers := GoMap.nil, clock := 0, crashed := false }

/-- An environment with the default flags in which every login succeeds, every
listing returns the inbound 1 with the given stats, the settings blob decodes
to `parse`, every `changeClientEnable` call answers `changeOk` and every
restart fails. -/
def sampleEnv (parse : Option (List SettingsClient)) (stats : List ClientStat)
    (changeOk : Bool) : Env :=
  { thresholdBytes := initThresholdBytes defaultThresholdMB
    intervalSeconds := 60
    unmarshalSettings := fun _ => parse
    loginOk := fun _ => true
    listResponse := fun _ =>
      some { Success := true, Msg := "", Obj := [{ ID := 1, ClientStats := stats, Settings := "x" }] }
    changeOk := fun _ => changeOk
    restartOk := fun _ => false }

/-- A state whose ledger records the total `v` for account `alice`, ID 7, of
server `srv`. -/
def ledgerState (v : Nat) : State :=
  { prev := (GoMap.empty : GoMap Nat).put (ledgerKey "srv" "alice" 7) v,
    bannedUsers := GoMap.empty, clock := 0, crashed := false }

/-- A state whose registry holds `alice`. -/
def bannedState : State :=
  { prev := GoMap.empty, bannedUsers := (GoMap.empty : GoMap Bool).put "alice" true,
    clock := 0, crashed := false }

/-- The settings of two clients, `alice` and `bob`. -/
def sampleClients : List SettingsClient :=
  [{ Email := "alice", ID := "uuid-a" }, { Email := "bob", ID := "uuid-b" }]

/-- The uuid map holding `alice` only. -/
def sampleUUIDs : GoMap String := (GoMap.empty : GoMap String).put "alice" "uuid-a"

/-- An environment in which the panel lists the breaching account `alice` on
every server and every call succeeds. -/
def raceEnv : Env := sampleEnv (some sampleClients) [sampleStat "alice" 20971520 0] true

/-- Two monitors, for the servers `s1` and `s2`, started on an empty ledger and
an empty registry. -/
def raceSystem : System :=
  startSystem [("s1", sampleCfg), ("s2", sampleCfg2)] GoMap.empty GoMap.empty

/-- One monitor started on an empty ledger and a registry that holds `alice`. -/
def bannedSystem : System :=
  startSystem [("srv", sampleCfg)] GoMap.empty ((GoMap.empty : GoMap Bool).put "alice" true)

/-- A schedule in which both monitors pass the test of line 278 on `alice`
before the first of them disables her and writes the registry. -/
def raceSchedule : List Nat := [0, 0, 1, 1, 0, 1, 0, 0, 0, 1, 1]

/-! ## Arithmetic lemmas -/

theorem sub64_of_le {a b : Nat} (ha : a < 2 ^ 64) (hb : b ≤ a) : sub64 a b = a - b := by
  unfold sub64
  omega

theorem sub64_of_lt {a b : Nat} (hb : b < 2 ^ 64) (hab : a < b) :
    sub64 a b = 2 ^ 64 - (b - a) := by
  unfold sub64
  omega

theorem add64_of_lt {a b : Nat} (h : a + b < 2 ^ 64) : add64 a b = a + b := by
  unfold add64
  omega

/-! ## Lemmas on Go maps -/

theorem GoMap.assign_of_alloc {V : Type} (m : GoMap V) (k : String) (v : V)
    (h : m.isNil = false) : m.assign k v = some (m.put k v) := by
  simp [GoMap.assign, h]

theorem GoMap.assign_of_nil {V : Type} (m : GoMap V) (k : String) (v : V)
    (h : m.isNil = true) : m.assign k v = none := by
  simp [GoMap.assign, h]

theorem GoMap.isNil_put {V : Type} (m : GoMap V) (k : String) (v : V) :
    (m.put k v).isNil = m.isNil := by
  cases m <;> rfl

theorem GoMap.index_put_self {V : Type} (m : GoMap V) (zero : V) (k : String) (v : V)
    (h : m.isNil = false) : (m.put k v).index zero k = v := by
  cases m with
  | nil => simp [GoMap.isNil] at h
  | alloc f => simp [GoMap.index, GoMap.put, GoMap.lookup]

theorem GoMap.lookup_put_of_ne {V : Type} (m : GoMap V) (k k' : String) (v : V)
    (h : k' ≠ k) : (m.put k v).lookup k' = m.lookup k' := by
  cases m with
  | nil => rfl
  | alloc f => simp [GoMap.put, GoMap.lookup, h]

theorem GoMap.lookup_put_self {V : Type} (m : GoMap V) (k : String) (v : V)
    (h : m.isNil = false) : (m.put k v).lookup k = some v := by
  cases m with
  | nil => simp [GoMap.isNil] at h
  | alloc f => simp [GoMap.put, GoMap.lookup]

theorem GoMap.index_put_of_ne {V : Type} (m : GoMap V) (zero : V) (k k' : String) (v : V)
    (h : k' ≠ k) : (m.put k v).index zero k' = m.index zero k' := by
  unfold GoMap.index
  rw [GoMap.lookup_put_of_ne m k k' v h]

/-! ## Lemmas on one stat entry -/

/-- The event of the panic of line 307, present exactly when the ledger is the
nil map. -/
theorem recordTotal_events (s : State) (key : String) (total : Nat) (evs : List Event) :
    (recordTotal s key total evs).2 =
      evs ++ (if s.prev.isNil = true then [Event.panic] else []) := by
  unfold recordTotal
  cases h : s.prev.isNil with
  | true => simp [GoMap.assign_of_nil _ _ _ h]
  | false => simp [GoMap.assign_of_alloc _ _ _ h]

theorem recordTotal_of_alloc (s : State) (key : String) (total : Nat) (evs : List Event)
    (h : s.prev.isNil = false) :
    recordTotal s key total evs = ({ s with prev := s.prev.put key total }, evs) := by
  unfold recordTotal
  simp [GoMap.assign_of_alloc _ _ _ h]

theorem recordTotal_bannedUsers (s : State) (key : String) (total : Nat) (evs : List Event) :
    (recordTotal s key total evs).1.bannedUsers = s.bannedUsers := by
  unfold recordTotal
  cases s.prev.assign key total <;> rfl

theorem banPolicy_prev (env : Env) (name : String) (cfg : ServerConfig) (uuidMap : GoMap String)
    (s : State) (c : ClientStat) : (banPolicy env name cfg uuidMap s c).1.prev = s.prev := by
  unfold banPolicy
  simp only
  split_ifs
  · rfl
  · rfl
  · cases s.bannedUsers.assign c.Email true <;> rfl

theorem banPolicy_exceeded_mem (env : Env) (name : String) (cfg : ServerConfig)
    (uuidMap : GoMap String) (s : State) (c : ClientStat) :
    Event.logExceeded name c.Email ∈ (banPolicy env name cfg uuidMap s c).2.1 := by
  unfold banPolicy
  simp only
  split_ifs
  · simp
  · simp
  · cases s.bannedUsers.assign c.Email true <;> simp

theorem processEntry_skip (env : Env) (name : String) (cfg : ServerConfig)
    (uuidMap : GoMap String) (s : State) (c : ClientStat)
    (h : c.Enable = false ∨ s.bannedUsers.index false c.Email = true) :
    processEntry env name cfg uuidMap s c = (s, []) := by
  unfold processEntry
  rcases h with h | h <;> simp [h]

theorem processEntry_eval (env : Env) (name : String) (cfg : ServerConfig)
    (uuidMap : GoMap String) (s : State) (c : ClientStat)
    (hen : c.Enable = true) (hnb : s.bannedUsers.index false c.Email = false) :
    processEntry env name cfg uuidMap s c =
      if entryDelta name s.prev c > env.thresholdBytes then
        if (banPolicy env name cfg uuidMap s c).2.2 = true then
          ((banPolicy env name cfg uuidMap s c).1,
            Event.logDelta name c.Email c.ID (entryDelta name s.prev c) ::
              (banPolicy env name cfg uuidMap s c).2.1)
        else
          recordTotal (banPolicy env name cfg uuidMap s c).1 (ledgerKey name c.Email c.ID)
            (add64 c.Up c.Down)
            (Event.logDelta name c.Email c.ID (entryDelta name s.prev c) ::
              (banPolicy env name cfg uuidMap s c).2.1)
      else
        recordTotal s (ledgerKey name c.Email c.ID) (add64 c.Up c.Down)
          [Event.logDelta name c.Email c.ID (entryDelta name s.prev c)] := by
  unfold processEntry entryDelta
  simp only [hen, hnb, Bool.not_true, Bool.or_self, Bool.false_eq_true, if_false]

theorem processEntry_exceeded_iff (env : Env) (name : String) (cfg : ServerConfig)
    (uuidMap : GoMap String) (s : State) (c : ClientStat)
    (hen : c.Enable = true) (hnb : s.bannedUsers.index false c.Email = false) :
    Event.logExceeded name c.Email ∈ (processEntry env name cfg uuidMap s c).2 ↔
      entryDelta name s.prev c > env.thresholdBytes := by
  rw [processEntry_eval env name cfg uuidMap s c hen hnb]
  have hm := banPolicy_exceeded_mem env name cfg uuidMap s c
  by_cases h : entryDelta name s.prev c > env.thresholdBytes
  · rw [if_pos h]
    refine ⟨fun _ => h, fun _ => ?_⟩
    by_cases hp : (banPolicy env name cfg uuidMap s c).2.2 = true
    · rw [if_pos hp]
      exact List.mem_cons_of_mem _ hm
    · rw [if_neg hp, recordTotal_events]
      exact List.mem_append_left _ (List.mem_cons_of_mem _ hm)
  · rw [if_neg h, recordTotal_events]
    refine ⟨fun hmem => ?_, fun h' => absurd h' h⟩
    split_ifs at hmem <;> simp at hmem

theorem processEntry_head (env : Env) (name : String) (cfg : ServerConfig)
    (uuidMap : GoMap String) (s : State) (c : ClientStat)
    (hen : c.Enable = true) (hnb : s.bannedUsers.index false c.Email = false) :
    (processEntry env name cfg uuidMap s c).2.head? =
      some (Event.logDelta name c.Email c.ID (entryDelta name s.prev c)) := by
  rw [processEntry_eval env name cfg uuidMap s c hen hnb]
  split_ifs
  · rfl
  · rw [recordTotal_events]; rfl
  · rw [recordTotal_events]; rfl

/-- With an allocated registry the ban block does not panic. -/
theorem banPolicy_of_alloc (env : Env) (name : String) (cfg : ServerConfig)
    (uuidMap : GoMap String) (s : State) (c : ClientStat)
    (hreg : s.bannedUsers.isNil = false) :
    (banPolicy env name cfg uuidMap s c).2.2 = false := by
  unfold banPolicy
  simp only [GoMap.assign_of_alloc _ _ _ hreg]
  split_ifs <;> rfl

theorem processEntry_prev (env : Env) (name : String) (cfg : ServerConfig)
    (uuidMap : GoMap String) (s : State) (c : ClientStat)
    (hen : c.Enable = true) (hnb : s.bannedUsers.index false c.Email = false)
    (hprev : s.prev.isNil = false) (hreg : s.bannedUsers.isNil = false) :
    (processEntry env name cfg uuidMap s c).1.prev =
      s.prev.put (ledgerKey name c.Email c.ID) (add64 c.Up c.Down) := by
  rw [processEntry_eval env name cfg uuidMap s c hen hnb]
  have hb := banPolicy_of_alloc env name cfg uuidMap s c hreg
  have hp := banPolicy_prev env name cfg uuidMap s c
  by_cases h : entryDelta name s.prev c > env.thresholdBytes
  · rw [if_pos h, hb, if_neg (by decide),
      recordTotal_of_alloc _ _ _ _ (by rw [hp]; exact hprev)]
    simp only [hp]
  · rw [if_neg h, recordTotal_of_alloc _ _ _ _ hprev]

/-! ## Claims on one stat entry -/

/-- C1, as the code has it: for an evaluated entry whose total does not
overflow and is at least the recorded total, the delta is
`(Up + Down) - prev[key]` and it is the value logged, for every ledger and
registry; when the ledger and the registry are allocated maps, the ledger
afterwards is the old one with `prev[key] = Up + Down` and the process is as
alive as before, whatever the threshold, the uuid map and the panel answer. -/
theorem C1_delta_and_ledger (env : Env) (name : String) (cfg : ServerConfig)
    (uuidMap : GoMap String) (s : State) (c : ClientStat)
    (hen : c.Enable = true) (hnb : s.bannedUsers.index false c.Email = false)
    (hsum : c.Up + c.Down < 2 ^ 64)
    (hge : s.prev.index 0 (ledgerKey name c.Email c.ID) ≤ c.Up + c.Down) :
    entryDelta name s.prev c = c.Up + c.Down - s.prev.index 0 (ledgerKey name c.Email c.ID) ∧
    (processEntry env name cfg uuidMap s c).2.head? =
      some (Event.logDelta name c.Email c.ID
        (c.Up + c.Down - s.prev.index 0 (ledgerKey name c.Email c.ID))) ∧
    (s.prev.isNil = false → s.bannedUsers.isNil = false →
      (processEntry env name cfg uuidMap s c).1.prev =
        s.prev.put (ledgerKey name c.Email c.ID) (c.Up + c.Down) ∧
      (processEntry env name cfg uuidMap s c).1.prev.index 0 (ledgerKey name c.Email c.ID) =
        c.Up + c.Down ∧
      Event.panic ∉ (processEntry env name cfg uuidMap s c).2) := by
  have hd : entryDelta name s.prev c =
      c.Up + c.Down - s.prev.index 0 (ledgerKey name c.Email c.ID) := by
    unfold entryDelta
    rw [add64_of_lt hsum]
    exact sub64_of_le hsum hge
  refine ⟨hd, ?_, ?_⟩
  · rw [processEntry_head env name cfg uuidMap s c hen hnb, hd]
  · intro hprev hreg
    have hp := processEntry_prev env name cfg uuidMap s c hen hnb hprev hreg
    rw [add64_of_lt hsum] at hp
    refine ⟨hp, ?_, ?_⟩
    · rw [hp, GoMap.index_put_self _ _ _ _ hprev]
    · rw [processEntry_eval env name cfg uuidMap s c hen hnb]
      have hb := banPolicy_of_alloc env name cfg uuidMap s c hreg
      have hbp := banPolicy_prev env name cfg uuidMap s c
      by_cases h : entryDelta name s.prev c > env.thresholdBytes
      · rw [if_pos h, hb, if_neg (by decide),
          recordTotal_of_alloc _ _ _ _ (by rw [hbp]; exact hprev)]
        unfold banPolicy
        simp only [GoMap.assign_of_alloc _ _ _ hreg]
        split_ifs <;> simp
      · rw [if_neg h, recordTotal_of_alloc _ _ _ _ hprev]
        simp

/-- C1, as stated, fails on the nil maps that `loadPrevUsage` and `loadBanned`
return for a file holding `null`.  With a nil ledger the entry `3 + 4` is
measured (delta 7) and the write of line 307 panics: the ledger entry still
reads 0.  With a nil registry and a successful disable call the write of
line 296 panics before line 307 is reached: the ledger entry still reads 0. -/
theorem C1_counterexample :
    ((sampleStat "alice" 3 4).Enable = true ∧
      nilLedgerState.bannedUsers.index false (sampleStat "alice" 3 4).Email = false ∧
      3 + 4 < 2 ^ 64 ∧
      nilLedgerState.prev.index 0 (ledgerKey "srv" "alice" 7) ≤ 3 + 4 ∧
      (processEntry (sampleEnv none [] true) "srv" sampleCfg sampleUUIDs nilLedgerState
        (sampleStat "alice" 3 4)).2 = [Event.logDelta "srv" "alice" 7 7, Event.panic] ∧
      (processEntry (sampleEnv none [] true) "srv" sampleCfg sampleUUIDs nilLedgerState
        (sampleStat "alice" 3 4)).1.prev.index 0 (ledgerKey "srv" "alice" 7) ≠ 3 + 4) ∧
    ((sampleStat "alice" 20971520 0).Enable = true ∧
      nilRegistryState.bannedUsers.index false (sampleStat "alice" 20971520 0).Email = false ∧
      20971520 + 0 < 2 ^ 64 ∧
      nilRegistryState.prev.index 0 (ledgerKey "srv" "alice" 7) ≤ 20971520 + 0 ∧
      (processEntry (sampleEnv none [] true) "srv" sampleCfg sampleUUIDs nilRegistryState
        (sampleStat "alice" 20971520 0)).1.prev.index 0 (ledgerKey "srv" "alice" 7) ≠
          20971520 + 0) := by
  decide

/-- C3: an entry that is disabled upstream or whose email reads `true` in
`bannedUsers` is skipped: no event at all is produced (in particular no
disable, restart or enable call and no scheduled restore) and the whole state,
ledger and registry included, is unchanged, whatever `Up` and `Down` are. -/
theorem C3_skipped_entry_is_noop (env : Env) (name : String) (cfg : ServerConfig)
    (uuidMap : GoMap String) (s : State) (c : ClientStat)
    (h : c.Enable = false ∨ s.bannedUsers.index false c.Email = true) :
    (processEntry env name cfg uuidMap s c).2 = [] ∧
    (processEntry env name cfg uuidMap s c).1 = s ∧
    (processEntry env name cfg uuidMap s c).1.prev = s.prev ∧
    (processEntry env name cfg uuidMap s c).1.prev.lookup (ledgerKey name c.Email c.ID) =
      s.prev.lookup (ledgerKey name c.Email c.ID) ∧
    (processEntry env name cfg uuidMap s c).1.bannedUsers = s.bannedUsers := by
  rw [processEntry_skip env name cfg uuidMap s c h]
  exact ⟨rfl, rfl, rfl, rfl, rfl⟩

/-- C2: the `exceeded` line, the first statement of the ban block, is produced for
an evaluated entry exactly when `delta > thresholdBytes`; the default flag gives
`10485760`; and with that threshold an account whose recorded total is `0` in
an allocated ledger and which is polled at `5242880` and then at `16777216`
produces only the delta line `5242880` on the first poll and the delta
`11534336` followed by the ban block on the second. -/
theorem C2_threshold_strict (env : Env) (name : String) (cfg : ServerConfig)
    (uuidMap : GoMap String) (s : State) (c : ClientStat)
    (hen : c.Enable = true) (hnb : s.bannedUsers.index false c.Email = false) :
    (Event.logExceeded name c.Email ∈ (processEntry env name cfg uuidMap s c).2 ↔
      entryDelta name s.prev c > env.thresholdBytes) ∧
    initThresholdBytes defaultThresholdMB = 10 * 1024 * 1024 ∧
    initThresholdBytes defaultThresholdMB = 10485760 ∧
    (∀ (uuidMap2 : GoMap String) (c2 : ClientStat),
      env.thresholdBytes = initThresholdBytes defaultThresholdMB →
      s.prev.isNil = false →
      s.prev.index 0 (ledgerKey name c.Email c.ID) = 0 →
      c.Up + c.Down = 5242880 →
      c2.Email = c.Email → c2.ID = c.ID → c2.Enable = true →
      c2.Up + c2.Down = 16777216 →
      (processEntry env name cfg uuidMap s c).2 =
        [Event.logDelta name c.Email c.ID 5242880] ∧
      (processEntry env name cfg uuidMap2 (processEntry env name cfg uuidMap s c).1 c2).2.head? =
        some (Event.logDelta name c.Email c.ID 11534336) ∧
      Event.logExceeded name c.Email ∈
        (processEntry env name cfg uuidMap2 (processEntry env name cfg uuidMap s c).1 c2).2) := by
  refine ⟨processEntry_exceeded_iff env name cfg uuidMap s c hen hnb, by decide, by decide, ?_⟩
  intro uuidMap2 c2 hthr hprev h0 h1 hem hid hen2 h2
  have hthr2 : env.thresholdBytes = 10485760 := by rw [hthr]; decide
  have hd1 : entryDelta name s.prev c = 5242880 := by
    unfold entryDelta
    rw [add64_of_lt (by omega), h0, h1]
    decide
  have hr1 := processEntry_eval env name cfg uuidMap s c hen hnb
  rw [hd1, hthr2, if_neg (by decide), recordTotal_of_alloc _ _ _ _ hprev] at hr1
  have hnb2 : (processEntry env name cfg uuidMap s c).1.bannedUsers.index false c2.Email
      = false := by
    rw [hr1, hem]; exact hnb
  have hd2 : entryDelta name (processEntry env name cfg uuidMap s c).1.prev c2 = 11534336 := by
    unfold entryDelta
    rw [hr1, hem, hid, add64_of_lt (by omega), h2]
    simp only [GoMap.index_put_self _ _ _ _ hprev]
    rw [add64_of_lt (by omega), h1]
    decide
  refine ⟨by rw [hr1], ?_, ?_⟩
  · rw [processEntry_head env name cfg uuidMap2 _ c2 hen2 hnb2, hd2, hem, hid]
  · have := (processEntry_exceeded_iff env name cfg uuidMap2 _ c2 hen2 hnb2).2
      (by rw [hd2, hthr2]; decide)
    rw [hem] at this
    exact this

/-- C10: when the 64-bit total of an evaluated entry is strictly below the recorded
`prev[key]`, the delta is the wrapped value `2 ^ 64 - (prev[key] - total)`; it
is positive (not clamped to zero), it is the value logged, and the ban block
runs whenever it exceeds the threshold.  With `prev[key] = 100`, `total = 0`
and a threshold of `10485760` the delta is `2 ^ 64 - 100` and the ban block
runs. -/
theorem C10_wrapped_delta (env : Env) (name : String) (cfg : ServerConfig)
    (uuidMap : GoMap String) (s : State) (c : ClientStat)
    (hen : c.Enable = true) (hnb : s.bannedUsers.index false c.Email = false)
    (hprev : s.prev.index 0 (ledgerKey name c.Email c.ID) < 2 ^ 64)
    (hlt : add64 c.Up c.Down < s.prev.index 0 (ledgerKey name c.Email c.ID)) :
    entryDelta name s.prev c =
      2 ^ 64 - (s.prev.index 0 (ledgerKey name c.Email c.ID) - add64 c.Up c.Down) ∧
    0 < entryDelta name s.prev c ∧
    (processEntry env name cfg uuidMap s c).2.head? =
      some (Event.logDelta name c.Email c.ID
        (2 ^ 64 - (s.prev.index 0 (ledgerKey name c.Email c.ID) - add64 c.Up c.Down))) ∧
    (2 ^ 64 - (s.prev.index 0 (ledgerKey name c.Email c.ID) - add64 c.Up c.Down) >
        env.thresholdBytes →
      Event.logExceeded name c.Email ∈ (processEntry env name cfg uuidMap s c).2) ∧
    (s.prev.index 0 (ledgerKey name c.Email c.ID) = 100 → add64 c.Up c.Down = 0 →
      env.thresholdBytes = 10485760 →
      entryDelta name s.prev c = 2 ^ 64 - 100 ∧
      Event.logExceeded name c.Email ∈ (processEntry env name cfg uuidMap s c).2) := by
  have hd : entryDelta name s.prev c =
      2 ^ 64 - (s.prev.index 0 (ledgerKey name c.Email c.ID) - add64 c.Up c.Down) := by
    unfold entryDelta
    exact sub64_of_lt hprev hlt
  have hiff := processEntry_exceeded_iff env name cfg uuidMap s c hen hnb
  refine ⟨hd, ?_, ?_, ?_, ?_⟩
  · rw [hd]; omega
  · rw [processEntry_head env name cfg uuidMap s c hen hnb, hd]
  · intro h
    exact hiff.2 (by rw [hd]; exact h)
  · intro h100 h0 hthr
    rw [h100, h0] at hd
    refine ⟨hd, hiff.2 ?_⟩
    rw [hd, hthr]
    decide

/-- C5, as the code has it: for an evaluated entry over the threshold whose
email resolves to a non-empty identifier, the events are exactly: the delta
line, the `exceeded` line, one disable call, then either (success, with an
allocated registry) the `banned` line, the registry save, one restart call
with whatever outcome, or (failure) the error line; and in both cases one
spawned restore carrying the identifier and the entry; a panic follows when
the ledger is the nil map.  On success `bannedUsers` is the old map with the
email set, independently of the restart outcome; on failure it is unchanged. -/
theorem C5_ban_policy (env : Env) (name : String) (cfg : ServerConfig)
    (uuidMap : GoMap String) (s : State) (c : ClientStat)
    (hen : c.Enable = true) (hnb : s.bannedUsers.index false c.Email = false)
    (hd : entryDelta name s.prev c > env.thresholdBytes)
    (hu : uuidMap.index "" c.Email ≠ "") :
    (env.changeOk s.clock = true → s.bannedUsers.isNil = false →
      (processEntry env name cfg uuidMap s c).2 =
        [Event.logDelta name c.Email c.ID (entryDelta name s.prev c),
         Event.logExceeded name c.Email,
         Event.changeClientEnable cfg (uuidMap.index "" c.Email) c false true,
         Event.logBanned name c.Email,
         Event.saveBanned,
         Event.restartPanel cfg (env.restartOk (s.clock + 1)),
         Event.spawnRestore cfg (uuidMap.index "" c.Email) c] ++
          (if s.prev.isNil = true then [Event.panic] else []) ∧
      (processEntry env name cfg uuidMap s c).1.bannedUsers =
        s.bannedUsers.put c.Email true ∧
      (processEntry env name cfg uuidMap s c).1.bannedUsers.index false c.Email = true) ∧
    (env.changeOk s.clock = false →
      (processEntry env name cfg uuidMap s c).2 =
        [Event.logDelta name c.Email c.ID (entryDelta name s.prev c),
         Event.logExceeded name c.Email,
         Event.changeClientEnable cfg (uuidMap.index "" c.Email) c false false,
         Event.logDisableErr name,
         Event.spawnRestore cfg (uuidMap.index "" c.Email) c] ++
          (if s.prev.isNil = true then [Event.panic] else []) ∧
      (processEntry env name cfg uuidMap s c).1.bannedUsers = s.bannedUsers) := by
  rw [processEntry_eval env name cfg uuidMap s c hen hnb, if_pos hd]
  constructor
  · intro hok hreg
    have hb : banPolicy env name cfg uuidMap s c =
        ({ s with clock := s.clock + 2, bannedUsers := s.bannedUsers.put c.Email true },
          [Event.logExceeded name c.Email,
           Event.changeClientEnable cfg (uuidMap.index "" c.Email) c false true,
           Event.logBanned name c.Email,
           Event.saveBanned,
           Event.restartPanel cfg (env.restartOk (s.clock + 1)),
           Event.spawnRestore cfg (uuidMap.index "" c.Email) c], false) := by
      unfold banPolicy
      simp only [hu, if_false, hok, Bool.true_eq_false, GoMap.assign_of_alloc _ _ _ hreg]
    rw [hb]
    simp only [Bool.false_eq_true, if_false, recordTotal_events, recordTotal_bannedUsers]
    refine ⟨by simp, trivial, GoMap.index_put_self _ _ _ _ hreg⟩
  · intro hok
    have hb : banPolicy env name cfg uuidMap s c =
        ({ s with clock := s.clock + 1 },
          [Event.logExceeded name c.Email,
           Event.changeClientEnable cfg (uuidMap.index "" c.Email) c false false,
           Event.logDisableErr name,
           Event.spawnRestore cfg (uuidMap.index "" c.Email) c], false) := by
      unfold banPolicy
      simp only [hu, if_false, hok, if_true]
    rw [hb]
    simp only [Bool.false_eq_true, if_false, recordTotal_events, recordTotal_bannedUsers]
    exact ⟨by simp, trivial⟩

/-- C5, as stated, fails on the nil registry that `loadBanned` returns for a
`ban.json` holding `null`: the disable call succeeds, the `banned` line is
logged and the write of line 296 panics, so the registry does not hold the
email and no save, no restart call and no restore follow. -/
theorem C5_counterexample :
    (sampleStat "alice" 20971520 0).Enable = true ∧
    nilRegistryState.bannedUsers.index false (sampleStat "alice" 20971520 0).Email = false ∧
    entryDelta "srv" nilRegistryState.prev (sampleStat "alice" 20971520 0) >
      (sampleEnv none [] true).thresholdBytes ∧
    sampleUUIDs.index "" (sampleStat "alice" 20971520 0).Email ≠ "" ∧
    (sampleEnv none [] true).changeOk nilRegistryState.clock = true ∧
    (processEntry (sampleEnv none [] true) "srv" sampleCfg sampleUUIDs nilRegistryState
      (sampleStat "alice" 20971520 0)).2 =
        [Event.logDelta "srv" "alice" 7 20971520, Event.logExceeded "srv" "alice",
         Event.changeClientEnable sampleCfg "uuid-a" (sampleStat "alice" 20971520 0) false true,
         Event.logBanned "srv" "alice", Event.panic] ∧
    (processEntry (sampleEnv none [] true) "srv" sampleCfg sampleUUIDs nilRegistryState
      (sampleStat "alice" 20971520 0)).1.bannedUsers.index false "alice" ≠ true := by
  decide

/-! ## Poll cycles in which no identifier is resolved -/

theorem processEntry_unresolved (env : Env) (name : String) (cfg : ServerConfig)
    (uuidMap : GoMap String) (s : State) (c : ClientStat)
    (hen : c.Enable = true) (hnb : s.bannedUsers.index false c.Email = false)
    (hu : uuidMap.index "" c.Email = "") :
    processEntry env name cfg uuidMap s c =
      recordTotal s (ledgerKey name c.Email c.ID) (add64 c.Up c.Down)
        (Event.logDelta name c.Email c.ID (entryDelta name s.prev c) ::
          (if entryDelta name s.prev c > env.thresholdBytes then
            [Event.logExceeded name c.Email, Event.logNoUUID name c.Email] else [])) := by
  rw [processEntry_eval env name cfg uuidMap s c hen hnb]
  have hb : banPolicy env name cfg uuidMap s c =
      (s, [Event.logExceeded name c.Email, Event.logNoUUID name c.Email], false) := by
    unfold banPolicy
    simp only [hu, if_true]
  rw [hb]
  by_cases h : entryDelta name s.prev c > env.thresholdBytes
  · simp only [if_pos h, Bool.false_eq_true, if_false]
  · simp only [if_neg h]

theorem evaluated_of_not_skip {s : State} {c : ClientStat}
    (h : ¬ (c.Enable = false ∨ s.bannedUsers.index false c.Email = true)) :
    c.Enable = true ∧ s.bannedUsers.index false c.Email = false := by
  constructor
  · cases hc : c.Enable with
    | true => rfl
    | false => exact absurd (Or.inl hc) h
  · cases hc : s.bannedUsers.index false c.Email with
    | false => rfl
    | true => exact absurd (Or.inr hc) h

theorem processEntry_unresolved_frame (env : Env) (name : String) (cfg : ServerConfig)
    (uuidMap : GoMap String) (s : State) (c : ClientStat)
    (hu : uuidMap.index "" c.Email = "") :
    (processEntry env name cfg uuidMap s c).1.bannedUsers = s.bannedUsers ∧
    (∀ e ∈ (processEntry env name cfg uuidMap s c).2, e.isEnforcement = false) := by
  by_cases hskip : c.Enable = false ∨ s.bannedUsers.index false c.Email = true
  · rw [processEntry_skip env name cfg uuidMap s c hskip]
    simp
  · obtain ⟨hen, hnb⟩ := evaluated_of_not_skip hskip
    rw [processEntry_unresolved env name cfg uuidMap s c hen hnb hu]
    refine ⟨recordTotal_bannedUsers _ _ _ _, ?_⟩
    intro e he
    rw [recordTotal_events] at he
    rcases List.mem_append.1 he with he | he
    · rcases List.mem_cons.1 he with he | he
      · subst he; rfl
      · split_ifs at he
        · simp only [List.mem_cons, List.mem_singleton, List.not_mem_nil, or_false] at he
          rcases he with he | he <;> subst he <;> rfl
        · simp at he
    · split_ifs at he
      · simp only [List.mem_singleton] at he
        subst he; rfl
      · simp at he

/-- With an allocated ledger an entry whose email is not resolved keeps the
process alive and the ledger allocated. -/
theorem processEntry_unresolved_alloc (env : Env) (name : String) (cfg : ServerConfig)
    (uuidMap : GoMap String) (s : State) (c : ClientStat)
    (hu : uuidMap.index "" c.Email = "") (hprev : s.prev.isNil = false) :
    (processEntry env name cfg uuidMap s c).1.prev.isNil = false ∧
    (processEntry env name cfg uuidMap s c).1.crashed = s.crashed ∧
    Event.panic ∉ (processEntry env name cfg uuidMap s c).2 := by
  by_cases hskip : c.Enable = false ∨ s.bannedUsers.index false c.Email = true
  · rw [processEntry_skip env name cfg uuidMap s c hskip]
    exact ⟨hprev, rfl, by simp⟩
  · obtain ⟨hen, hnb⟩ := evaluated_of_not_skip hskip
    rw [processEntry_unresolved env name cfg uuidMap s c hen hnb hu,
      recordTotal_of_alloc _ _ _ _ hprev]
    refine ⟨by simp only [GoMap.isNil_put]; exact hprev, rfl, ?_⟩
    split_ifs <;> simp

theorem processStats_cons (env : Env) (name : String) (cfg : ServerConfig)
    (uuidMap : GoMap String) (s : State) (c : ClientStat) (cs : List ClientStat) :
    processStats env name cfg uuidMap s (c :: cs) =
      if (processEntry env name cfg uuidMap s c).1.crashed = true then
        processEntry env name cfg uuidMap s c
      else
        ((processStats env name cfg uuidMap (processEntry env name cfg uuidMap s c).1 cs).1,
          (processEntry env name cfg uuidMap s c).2 ++
            (processStats env name cfg uuidMap (processEntry env name cfg uuidMap s c).1
              cs).2) := rfl

theorem processStats_unresolved_frame (env : Env) (name : String) (cfg : ServerConfig)
    (uuidMap : GoMap String) (stats : List ClientStat) (s : State)
    (hu : ∀ c ∈ stats, uuidMap.index "" c.Email = "") :
    (processStats env name cfg uuidMap s stats).1.bannedUsers = s.bannedUsers ∧
    (∀ e ∈ (processStats env name cfg uuidMap s stats).2, e.isEnforcement = false) := by
  induction stats generalizing s with
  | nil => simp [processStats]
  | cons c cs ih =>
    have h1 := processEntry_unresolved_frame env name cfg uuidMap s c (hu c (by simp))
    have h2 := ih (processEntry env name cfg uuidMap s c).1
      (fun d hd => hu d (List.mem_cons_of_mem _ hd))
    rw [processStats_cons]
    split_ifs
    · exact h1
    · refine ⟨h2.1.trans h1.1, ?_⟩
      intro e he
      rcases List.mem_append.1 he with he | he
      · exact h1.2 e he
      · exact h2.2 e he

theorem processStats_unresolved_alloc (env : Env) (name : String) (cfg : ServerConfig)
    (uuidMap : GoMap String) (stats : List ClientStat) (s : State)
    (hu : ∀ c ∈ stats, uuidMap.index "" c.Email = "")
    (hprev : s.prev.isNil = false) (hlive : s.crashed = false) :
    (processStats env name cfg uuidMap s stats).1.prev.isNil = false ∧
    (processStats env name cfg uuidMap s stats).1.crashed = false := by
  induction stats generalizing s with
  | nil => exact ⟨hprev, hlive⟩
  | cons c cs ih =>
    have h1 := processEntry_unresolved_alloc env name cfg uuidMap s c (hu c (by simp)) hprev
    have hl : (processEntry env name cfg uuidMap s c).1.crashed = false := by
      rw [h1.2.1]; exact hlive
    rw [processStats_cons, hl, if_neg (by decide)]
    exact ih _ (fun d hd => hu d (List.mem_cons_of_mem _ hd)) h1.1 hl

theorem processStats_append_live (env : Env) (name : String) (cfg : ServerConfig)
    (uuidMap : GoMap String) (l1 l2 : List ClientStat) (s : State)
    (hlive : (processStats env name cfg uuidMap s l1).1.crashed = false) :
    processStats env name cfg uuidMap s (l1 ++ l2) =
      ((processStats env name cfg uuidMap (processStats env name cfg uuidMap s l1).1 l2).1,
        (processStats env name cfg uuidMap s l1).2 ++
          (processStats env name cfg uuidMap (processStats env name cfg uuidMap s l1).1 l2).2) := by
  induction l1 generalizing s with
  | nil => simp [processStats]
  | cons c cs ih =>
    rw [processStats_cons] at hlive
    by_cases hc : (processEntry env name cfg uuidMap s c).1.crashed = true
    · rw [if_pos hc, hc] at hlive
      exact absurd hlive (by decide)
    · rw [if_neg hc] at hlive
      rw [List.cons_append, processStats_cons, processStats_cons, if_neg hc, if_neg hc,
        ih _ hlive, List.append_assoc]

theorem processStats_unresolved_keep (env : Env) (name : String) (cfg : ServerConfig)
    (uuidMap : GoMap String) (k : String) (v : Nat) (post : List ClientStat) (s : State)
    (hu : ∀ c ∈ post, uuidMap.index "" c.Email = "")
    (hprev : s.prev.isNil = false)
    (hlast : ∀ d ∈ post, d.Enable = true → s.bannedUsers.index false d.Email = false →
      ledgerKey name d.Email d.ID = k → add64 d.Up d.Down = v)
    (hk : s.prev.index 0 k = v) :
    (processStats env name cfg uuidMap s post).1.prev.index 0 k = v := by
  induction post generalizing s with
  | nil => simpa [processStats] using hk
  | cons c cs ih =>
    have hb := (processEntry_unresolved_frame env name cfg uuidMap s c (hu c (by simp))).1
    have ha := processEntry_unresolved_alloc env name cfg uuidMap s c (hu c (by simp)) hprev
    have hone : (processEntry env name cfg uuidMap s c).1.prev.index 0 k = v := by
      by_cases hskip : c.Enable = false ∨ s.bannedUsers.index false c.Email = true
      · rw [processEntry_skip env name cfg uuidMap s c hskip]
        exact hk
      · obtain ⟨hen, hnb⟩ := evaluated_of_not_skip hskip
        rw [processEntry_unresolved env name cfg uuidMap s c hen hnb (hu c (by simp)),
          recordTotal_of_alloc _ _ _ _ hprev]
        by_cases hkey : k = ledgerKey name c.Email c.ID
        · rw [hkey]
          simp only [GoMap.index_put_self _ _ _ _ hprev]
          exact hlast c (by simp) hen hnb hkey.symm
        · simp only [GoMap.index_put_of_ne _ _ _ _ _ hkey]
          exact hk
    rw [processStats_cons]
    split_ifs
    · exact hone
    · apply ih
      · exact fun d hd => hu d (List.mem_cons_of_mem _ hd)
      · exact ha.1
      · intro d hd hen hnb hkey
        rw [hb] at hnb
        exact hlast d (List.mem_cons_of_mem _ hd) hen hnb hkey
      · exact hone

/-- C6, as the code has it: in a poll cycle whose login and fetch succeed and
whose settings blob does not parse, the uuid map is empty; the cycle emits no
`changeClientEnable` call, no restart call, no registry save and no spawned
restore, and leaves `bannedUsers` unchanged.  When the ledger is an allocated
map (and the process alive), the cycle completes without a panic, every
enabled, non-banned entry of the list has its ledger entry set to its 64-bit
total when it is processed, and that value is the one at the end of the cycle
unless a later entry of the list with the same key carries another total.
More generally an evaluated entry over the threshold whose email reads as the
empty string in the uuid map produces the three log lines, no registry change
and, with an allocated ledger, the ledger assignment and nothing else. -/
theorem C6_unparsable_settings (env : Env) (name : String) (cfg : ServerConfig) (s : State)
    (stats : List ClientStat) (settingsJSON : String)
    (hlogin : env.loginOk s.clock = true)
    (hfetch : fetchClientStats (env.listResponse (s.clock + 1)) cfg = some (stats, settingsJSON))
    (hparse : env.unmarshalSettings settingsJSON = none) :
    (buildUUIDMap env name settingsJSON).1 = GoMap.empty ∧
    (∀ e ∈ (pollIteration env name cfg s).2, e.isEnforcement = false) ∧
    (pollIteration env name cfg s).1.bannedUsers = s.bannedUsers ∧
    (s.prev.isNil = false → s.crashed = false →
      (pollIteration env name cfg s).1.crashed = false ∧
      Event.savePrevUsage ∈ (pollIteration env name cfg s).2 ∧
      ∀ (pre post : List ClientStat) (c : ClientStat), stats = pre ++ c :: post →
        c.Enable = true → s.bannedUsers.index false c.Email = false →
        (processStats env name cfg GoMap.empty { s with clock := s.clock + 2 }
            (pre ++ [c])).1.prev.index 0 (ledgerKey name c.Email c.ID) = add64 c.Up c.Down ∧
        ((∀ d ∈ post, d.Enable = true → s.bannedUsers.index false d.Email = false →
            ledgerKey name d.Email d.ID = ledgerKey name c.Email c.ID →
            add64 d.Up d.Down = add64 c.Up c.Down) →
          (pollIteration env name cfg s).1.prev.index 0 (ledgerKey name c.Email c.ID) =
            add64 c.Up c.Down)) ∧
    (∀ (uuidMap : GoMap String) (s1 : State) (c : ClientStat),
      c.Enable = true → s1.bannedUsers.index false c.Email = false →
      entryDelta name s1.prev c > env.thresholdBytes → uuidMap.index "" c.Email = "" →
      (processEntry env name cfg uuidMap s1 c).2 =
        [Event.logDelta name c.Email c.ID (entryDelta name s1.prev c),
         Event.logExceeded name c.Email, Event.logNoUUID name c.Email] ++
          (if s1.prev.isNil = true then [Event.panic] else []) ∧
      (processEntry env name cfg uuidMap s1 c).1.bannedUsers = s1.bannedUsers ∧
      (s1.prev.isNil = false →
        processEntry env name cfg uuidMap s1 c =
          ({ s1 with prev := s1.prev.put (ledgerKey name c.Email c.ID) (add64 c.Up c.Down) },
            [Event.logDelta name c.Email c.ID (entryDelta name s1.prev c),
             Event.logExceeded name c.Email, Event.logNoUUID name c.Email]))) := by
  have hmap : buildUUIDMap env name settingsJSON = (GoMap.empty, [Event.logParseErr name]) := by
    unfold buildUUIDMap
    rw [hparse]
  have hpoll : pollIteration env name cfg s =
      if (processStats env name cfg GoMap.empty { s with clock := s.clock + 2 }
          stats).1.crashed = true then
        ((processStats env name cfg GoMap.empty { s with clock := s.clock + 2 } stats).1,
          [Event.login cfg true, Event.fetchClientStats cfg true] ++ [Event.logParseErr name] ++
            (processStats env name cfg GoMap.empty { s with clock := s.clock + 2 } stats).2)
      else
        ((processStats env name cfg GoMap.empty { s with clock := s.clock + 2 } stats).1,
          [Event.login cfg true, Event.fetchClientStats cfg true] ++ [Event.logParseErr name] ++
            (processStats env name cfg GoMap.empty { s with clock := s.clock + 2 } stats).2 ++
            [Event.savePrevUsage, Event.sleep env.intervalSeconds]) := by
    unfold pollIteration
    simp only [hlogin, Bool.true_eq_false, if_false, hfetch, hmap]
  have hstate : (pollIteration env name cfg s).1 =
      (processStats env name cfg GoMap.empty { s with clock := s.clock + 2 } stats).1 := by
    rw [hpoll]
    split_ifs <;> rfl
  have hempty : ∀ l : List ClientStat, ∀ c ∈ l, (GoMap.empty : GoMap String).index "" c.Email = "" :=
    fun _ _ _ => rfl
  have hframe := fun l s0 =>
    processStats_unresolved_frame env name cfg GoMap.empty l s0 (hempty l)
  refine ⟨by rw [hmap], ?_, ?_, ?_, ?_⟩
  · intro e he
    rw [hpoll] at he
    have hpre : ∀ e ∈ [Event.login cfg true, Event.fetchClientStats cfg true] ++
        [Event.logParseErr name] ++
        (processStats env name cfg GoMap.empty { s with clock := s.clock + 2 } stats).2,
        e.isEnforcement = false := by
      intro e he
      simp only [List.mem_append, List.mem_cons, List.mem_singleton, List.not_mem_nil,
        or_false] at he
      rcases he with ((he | he) | he) | he
      · subst he; rfl
      · subst he; rfl
      · subst he; rfl
      · exact (hframe stats _).2 e he
    split_ifs at he
    · exact hpre e he
    · rcases List.mem_append.1 he with he | he
      · exact hpre e he
      · simp only [List.mem_cons, List.mem_singleton, List.not_mem_nil, or_false] at he
        rcases he with he | he <;> subst he <;> rfl
  · rw [hstate]
    exact (hframe stats _).1
  · intro hprev hlive
    have halloc := fun l =>
      processStats_unresolved_alloc env name cfg GoMap.empty l { s with clock := s.clock + 2 }
        (hempty l) hprev hlive
    refine ⟨by rw [hstate]; exact (halloc stats).2, ?_, ?_⟩
    · rw [hpoll, (halloc stats).2, if_neg (by decide)]
      simp
    · intro pre post c hsplit hen hnb
      have hpre := (hframe pre { s with clock := s.clock + 2 }).1
      have hnb1 : (processStats env name cfg GoMap.empty { s with clock := s.clock + 2 }
          pre).1.bannedUsers.index false c.Email = false := by
        rw [hpre]; exact hnb
      have hone : (processStats env name cfg GoMap.empty { s with clock := s.clock + 2 }
          (pre ++ [c])).1.prev.index 0 (ledgerKey name c.Email c.ID) = add64 c.Up c.Down := by
        rw [processStats_append_live _ _ _ _ _ _ _ (halloc pre).2, processStats_cons]
        have hE := processEntry_unresolved env name cfg GoMap.empty _ c hen hnb1 rfl
        rw [recordTotal_of_alloc _ _ _ _ (halloc pre).1] at hE
        rw [hE]
        simp only [processStats]
        split_ifs <;> simp only [GoMap.index_put_self _ _ _ _ (halloc pre).1]
      refine ⟨hone, ?_⟩
      intro hlast
      rw [hstate, hsplit]
      have hcons : pre ++ c :: post = (pre ++ [c]) ++ post := by simp
      rw [hcons, processStats_append_live _ _ _ _ _ _ _ (halloc (pre ++ [c])).2]
      apply processStats_unresolved_keep env name cfg GoMap.empty _ _ post _ (hempty post)
        (halloc (pre ++ [c])).1
      · intro d hd hden hdnb hkey
        rw [(hframe (pre ++ [c]) _).1] at hdnb
        exact hlast d hd hden hdnb hkey
      · exact hone
  · intro uuidMap s1 c hen hnb hd hu
    rw [processEntry_unresolved env name cfg uuidMap s1 c hen hnb hu, if_pos hd]
    refine ⟨by rw [recordTotal_events], recordTotal_bannedUsers _ _ _ _, ?_⟩
    intro hprev
    rw [recordTotal_of_alloc _ _ _ _ hprev]

/-! ## The registry along uninterrupted execution -/

theorem RegistryOnly.of_same {s s' : State} {evs : List Event}
    (h : s'.bannedUsers = s.bannedUsers) : RegistryOnly s evs s' :=
  fun k => Or.inl (by rw [h])

theorem RegistryOnly.weaken {s s1 s2 : State} {evs evs2 : List Event}
    (h : RegistryOnly s evs s1) (hb : s2.bannedUsers = s1.bannedUsers)
    (hsub : ∀ e ∈ evs, e ∈ evs2) : RegistryOnly s evs2 s2 := by
  intro k
  rw [hb]
  rcases h k with h1 | ⟨h1, cfg, u, c, hc, hmem⟩
  · exact Or.inl h1
  · exact Or.inr ⟨h1, cfg, u, c, hc, hsub _ hmem⟩

theorem RegistryOnly.append {s s1 s2 : State} {evs1 evs2 : List Event}
    (h1 : RegistryOnly s evs1 s1) (h2 : RegistryOnly s1 evs2 s2) :
    RegistryOnly s (evs1 ++ evs2) s2 := by
  intro k
  rcases h2 k with e2 | ⟨e2, cfg, u, c, hc, hmem⟩
  · rcases h1 k with e1 | ⟨e1, cfg, u, c, hc, hmem⟩
    · exact Or.inl (e2.trans e1)
    · exact Or.inr ⟨e2.trans e1, cfg, u, c, hc, List.mem_append_left _ hmem⟩
  · exact Or.inr ⟨e2, cfg, u, c, hc, List.mem_append_right _ hmem⟩

theorem RegistryOnly.mono {s s' : State} {evs : List Event} (h : RegistryOnly s evs s')
    (k : String) (hk : s.bannedUsers.index false k = true) :
    s'.bannedUsers.index false k = true := by
  rcases h k with h1 | ⟨h1, _⟩
  · simpa [GoMap.index, h1] using hk
  · simp [GoMap.index, h1]

theorem registryOnly_banPolicy (env : Env) (name : String) (cfg : ServerConfig)
    (uuidMap : GoMap String) (s : State) (c : ClientStat) :
    RegistryOnly s (banPolicy env name cfg uuidMap s c).2.1
      (banPolicy env name cfg uuidMap s c).1 := by
  unfold banPolicy
  simp only
  by_cases hu : uuidMap.index "" c.Email = ""
  · rw [if_pos hu]
    exact RegistryOnly.of_same rfl
  · rw [if_neg hu]
    by_cases hok : env.changeOk s.clock = false
    · rw [if_pos hok]
      exact RegistryOnly.of_same rfl
    · rw [if_neg hok]
      cases hn : s.bannedUsers.isNil with
      | true =>
        rw [GoMap.assign_of_nil _ _ _ hn]
        exact RegistryOnly.of_same rfl
      | false =>
        rw [GoMap.assign_of_alloc _ _ _ hn]
        intro k
        by_cases hk : k = c.Email
        · refine Or.inr ⟨?_, cfg, uuidMap.index "" c.Email, c, hk.symm, by simp⟩
          rw [hk]
          exact GoMap.lookup_put_self _ _ _ hn
        · exact Or.inl (GoMap.lookup_put_of_ne _ _ _ _ hk)

theorem registryOnly_processEntry (env : Env) (name : String) (cfg : ServerConfig)
    (uuidMap : GoMap String) (s : State) (c : ClientStat) :
    RegistryOnly s (processEntry env name cfg uuidMap s c).2
      (processEntry env name cfg uuidMap s c).1 := by
  by_cases hskip : c.Enable = false ∨ s.bannedUsers.index false c.Email = true
  · rw [processEntry_skip env name cfg uuidMap s c hskip]
    exact RegistryOnly.of_same rfl
  · obtain ⟨hen, hnb⟩ := evaluated_of_not_skip hskip
    rw [processEntry_eval env name cfg uuidMap s c hen hnb]
    have hb := registryOnly_banPolicy env name cfg uuidMap s c
    by_cases hd : entryDelta name s.prev c > env.thresholdBytes
    · rw [if_pos hd]
      by_cases hp : (banPolicy env name cfg uuidMap s c).2.2 = true
      · rw [if_pos hp]
        exact hb.weaken rfl (fun e he => List.mem_cons_of_mem _ he)
      · rw [if_neg hp]
        refine hb.weaken (recordTotal_bannedUsers _ _ _ _) (fun e he => ?_)
        rw [recordTotal_events]
        exact List.mem_append_left _ (List.mem_cons_of_mem _ he)
    · rw [if_neg hd]
      exact RegistryOnly.of_same (recordTotal_bannedUsers _ _ _ _)

theorem registryOnly_processStats (env : Env) (name : String) (cfg : ServerConfig)
    (uuidMap : GoMap String) (stats : List ClientStat) (s : State) :
    RegistryOnly s (processStats env name cfg uuidMap s stats).2
      (processStats env name cfg uuidMap s stats).1 := by
  induction stats generalizing s with
  | nil => exact RegistryOnly.of_same rfl
  | cons c cs ih =>
    rw [processStats_cons]
    split_ifs
    · exact registryOnly_processEntry env name cfg uuidMap s c
    · exact (registryOnly_processEntry env name cfg uuidMap s c).append (ih _)

theorem registryOnly_pollIteration (env : Env) (name : String) (cfg : ServerConfig) (s : State) :
    RegistryOnly s (pollIteration env name cfg s).2 (pollIteration env name cfg s).1 := by
  unfold pollIteration
  by_cases hl : env.loginOk s.clock = false
  · rw [if_pos hl]
    exact RegistryOnly.of_same rfl
  · rw [if_neg hl]
    cases hf : fetchClientStats (env.listResponse (s.clock + 1)) cfg with
    | none => exact RegistryOnly.of_same rfl
    | some p =>
      obtain ⟨stats, settingsJSON⟩ := p
      simp only
      have h2 : RegistryOnly s
          (processStats env name cfg (buildUUIDMap env name settingsJSON).1
            { s with clock := s.clock + 2 } stats).2
          (processStats env name cfg (buildUUIDMap env name settingsJSON).1
            { s with clock := s.clock + 2 } stats).1 :=
        registryOnly_processStats env name cfg (buildUUIDMap env name settingsJSON).1
          stats { s with clock := s.clock + 2 }
      by_cases hc : (processStats env name cfg (buildUUIDMap env name settingsJSON).1
          { s with clock := s.clock + 2 } stats).1.crashed = true
      · rw [if_pos hc]
        exact h2.weaken rfl (fun e he => List.mem_append_right _ he)
      · rw [if_neg hc]
        exact h2.weaken rfl
          (fun e he => List.mem_append_left _ (List.mem_append_right _ he))

theorem registryOnly_step (env : Env) (a : Action) (s : State) :
    RegistryOnly s (step env a s).2 (step env a s).1 := by
  unfold step
  split_ifs
  · exact RegistryOnly.of_same rfl
  · cases a with
    | poll name cfg => exact registryOnly_pollIteration env name cfg s
    | restore cfg u cc => exact RegistryOnly.of_same rfl

/-! ## The registry along interleaved execution -/

/-- One step of a monitor changes the registry only at the statement of line
296, where it sets the email of the entry at hand. -/
theorem monitorStep_registry (env : Env) (m : Monitor) (s : State) (k : String) :
    (monitorStep env m s).2.1.bannedUsers.lookup k = s.bannedUsers.lookup k ∨
    ((monitorStep env m s).2.1.bannedUsers.lookup k = some true ∧
      ∃ uuidMap uuid c rest, m.phase = Phase.register uuidMap uuid c rest ∧ c.Email = k) := by
  obtain ⟨name, cfg, phase⟩ := m
  cases phase with
  | top => unfold monitorStep; simp only; split_ifs <;> exact Or.inl rfl
  | fetch =>
    unfold monitorStep
    simp only
    cases fetchClientStats (env.listResponse s.clock) cfg with
    | none => exact Or.inl rfl
    | some p => exact Or.inl rfl
  | range uuidMap rest =>
    cases rest with
    | nil => exact Or.inl rfl
    | cons c cs => unfold monitorStep; simp only; split_ifs <;> exact Or.inl rfl
  | measure uuidMap c rest => unfold monitorStep; simp only; split_ifs <;> exact Or.inl rfl
  | call uuidMap uuid c rest => unfold monitorStep; simp only; split_ifs <;> exact Or.inl rfl
  | register uuidMap uuid c rest =>
    unfold monitorStep
    simp only
    cases hn : s.bannedUsers.isNil with
    | true =>
      rw [GoMap.assign_of_nil _ _ _ hn]
      exact Or.inl rfl
    | false =>
      rw [GoMap.assign_of_alloc _ _ _ hn]
      by_cases hk : k = c.Email
      · refine Or.inr ⟨?_, uuidMap, uuid, c, rest, rfl, hk.symm⟩
        rw [hk]
        exact GoMap.lookup_put_self _ _ _ hn
      · exact Or.inl (GoMap.lookup_put_of_ne _ _ _ _ hk)
  | save uuidMap uuid c rest => exact Or.inl rfl
  | restart uuidMap uuid c rest => exact Or.inl rfl
  | spawn uuidMap uuid c rest => exact Or.inl rfl
  | record uuidMap c rest =>
    unfold monitorStep
    simp only
    cases s.prev.assign (ledgerKey name c.Email c.ID) (add64 c.Up c.Down) <;> exact Or.inl rfl

theorem restoreStep_bannedUsers (env : Env) (cfg : ServerConfig) (u : String) (cc : ClientStat)
    (n : Nat) (s : State) :
    (threadStep env (Thread.restore cfg u cc n) s).2.1.bannedUsers = s.bannedUsers := by
  match n with
  | 0 => rfl
  | 1 => rfl
  | 2 => rfl
  | n + 3 => rfl

theorem sysStep_registry (env : Env) (i : Nat) (sys : System) (k : String) :
    (sysStep env i sys).1.shared.bannedUsers.lookup k = sys.shared.bannedUsers.lookup k ∨
    ((sysStep env i sys).1.shared.bannedUsers.lookup k = some true ∧
      ∃ name cfg uuidMap uuid c rest,
        sys.threads[i]? = some (Thread.monitor
          { name := name, cfg := cfg, phase := Phase.register uuidMap uuid c rest }) ∧
        c.Email = k) := by
  unfold sysStep
  split_ifs
  · exact Or.inl rfl
  · cases ht : sys.threads[i]? with
    | none => exact Or.inl rfl
    | some t =>
      cases t with
      | monitor m =>
        rcases monitorStep_registry env m sys.shared k with h | ⟨h, um, uuid, c, rest, hp, hc⟩
        · exact Or.inl h
        · refine Or.inr ⟨h, m.name, m.cfg, um, uuid, c, rest, ?_, hc⟩
          rw [← hp]
      | restore cfg u cc n =>
        refine Or.inl ?_
        simp only
        rw [restoreStep_bannedUsers]

/-- C7: a poll iteration or a cooldown restore never removes a key of
`bannedUsers` and never unsets an email that reads `true`; an entry of
`bannedUsers` that differs after the step is `true` and belongs to the email
of a disable call that succeeded during the step; and the cooldown restore
leaves `bannedUsers` unchanged whatever its two calls return.  The same holds
step by step when the goroutines are interleaved: a step of any goroutine
keeps every key and every `true` entry, the only step that changes an entry
is the statement of line 296 of a monitor whose disable call has returned
without error, and it sets the email of that entry. -/
theorem C7_registry_never_shrinks (env : Env) (a : Action) (s : State) :
    (∀ k, (s.bannedUsers.lookup k).isSome = true →
      ((step env a s).1.bannedUsers.lookup k).isSome = true) ∧
    (∀ k, s.bannedUsers.index false k = true →
      (step env a s).1.bannedUsers.index false k = true) ∧
    (∀ k, (step env a s).1.bannedUsers.lookup k ≠ s.bannedUsers.lookup k →
      (step env a s).1.bannedUsers.lookup k = some true ∧
      ∃ cfg u c, c.Email = k ∧ Event.changeClientEnable cfg u c false true ∈ (step env a s).2) ∧
    (∀ cfg u cc, (restoreAction env cfg u cc s).1.bannedUsers = s.bannedUsers ∧
      (step env (Action.restore cfg u cc) s).1.bannedUsers = s.bannedUsers) ∧
    (∀ (i : Nat) (sys : System),
      (∀ k, (sys.shared.bannedUsers.lookup k).isSome = true →
        ((sysStep env i sys).1.shared.bannedUsers.lookup k).isSome = true) ∧
      (∀ k, sys.shared.bannedUsers.index false k = true →
        (sysStep env i sys).1.shared.bannedUsers.index false k = true) ∧
      (∀ k, (sysStep env i sys).1.shared.bannedUsers.lookup k ≠
          sys.shared.bannedUsers.lookup k →
        (sysStep env i sys).1.shared.bannedUsers.lookup k = some true ∧
        ∃ name cfg uuidMap uuid c rest,
          sys.threads[i]? = some (Thread.monitor
            { name := name, cfg := cfg, phase := Phase.register uuidMap uuid c rest }) ∧
          c.Email = k)) := by
  have hc := registryOnly_step env a s
  refine ⟨?_, fun k hk => hc.mono k hk, ?_, ?_, ?_⟩
  · intro k hk
    rcases hc k with h | ⟨h, _⟩
    · rw [h]; exact hk
    · rw [h]; rfl
  · intro k hk
    rcases hc k with h | h
    · exact absurd h hk
    · exact h
  · intro cfg u cc
    refine ⟨rfl, ?_⟩
    unfold step
    split_ifs <;> rfl
  · intro i sys
    refine ⟨?_, ?_, ?_⟩
    · intro k hk
      rcases sysStep_registry env i sys k with h | ⟨h, _⟩
      · rw [h]; exact hk
      · rw [h]; rfl
    · intro k hk
      rcases sysStep_registry env i sys k with h | ⟨h, _⟩
      · simpa [GoMap.index, h] using hk
      · simp [GoMap.index, h]
    · intro k hk
      rcases sysStep_registry env i sys k with h | h
      · exact absurd h hk
      · exact h

/-! ## Disable calls along interleaved execution -/

theorem loadUUIDs_quiet (name : String) (clients : List SettingsClient) (m : GoMap String) :
    ∀ e ∈ (loadUUIDs name m clients).2, e.isEnforcement = false := by
  induction clients generalizing m with
  | nil => simp [loadUUIDs]
  | cons cl rest ih =>
    intro e he
    simp only [loadUUIDs, List.mem_cons] at he
    rcases he with he | he
    · subst he
      rfl
    · exact ih _ e he

theorem buildUUIDMap_quiet (env : Env) (name settingsJSON : String) :
    ∀ e ∈ (buildUUIDMap env name settingsJSON).2, e.isEnforcement = false := by
  unfold buildUUIDMap
  cases env.unmarshalSettings settingsJSON with
  | none => simp [Event.isEnforcement]
  | some clients => exact loadUUIDs_quiet name clients GoMap.empty

/-- A monitor issues a disable call only at line 292, for the entry it has in
flight and with the identifier it resolved. -/
theorem monitorStep_disable_only_at_call (env : Env) (m : Monitor) (s : State)
    (cfg : ServerConfig) (u : String) (c : ClientStat) (ok : Bool)
    (h : Event.changeClientEnable cfg u c false ok ∈ (monitorStep env m s).2.2) :
    ∃ uuidMap rest, m.phase = Phase.call uuidMap u c rest := by
  obtain ⟨name, mcfg, phase⟩ := m
  cases phase with
  | top => unfold monitorStep at h; simp only at h; split_ifs at h <;> simp at h
  | fetch =>
    unfold monitorStep at h
    simp only at h
    cases hf : fetchClientStats (env.listResponse s.clock) mcfg with
    | none => rw [hf] at h; simp at h
    | some p =>
      rw [hf] at h
      simp only [List.mem_cons, reduceCtorEq, false_or] at h
      have := buildUUIDMap_quiet env name p.2 _ h
      simp [Event.isEnforcement] at this
  | range uuidMap rest =>
    cases rest with
    | nil => simp [monitorStep] at h
    | cons x xs => unfold monitorStep at h; simp only at h; split_ifs at h <;> simp at h
  | measure uuidMap x rest =>
    unfold monitorStep at h; simp only at h; split_ifs at h <;> simp at h
  | call uuidMap uuid x rest =>
    unfold monitorStep at h
    simp only at h
    split_ifs at h
    · simp at h
      exact ⟨uuidMap, rest, by rw [h.2.1, h.2.2.1]⟩
    · simp at h
      exact ⟨uuidMap, rest, by rw [h.2.1, h.2.2.1]⟩
  | register uuidMap uuid x rest =>
    unfold monitorStep at h
    simp only at h
    cases ha : s.bannedUsers.assign x.Email true with
    | none => rw [ha] at h; simp at h
    | some b => rw [ha] at h; simp at h
  | save uuidMap uuid x rest => simp [monitorStep] at h
  | restart uuidMap uuid x rest => simp [monitorStep] at h
  | spawn uuidMap uuid x rest => simp [monitorStep] at h
  | record uuidMap x rest =>
    unfold monitorStep at h
    simp only at h
    cases ha : s.prev.assign (ledgerKey name x.Email x.ID) (add64 x.Up x.Down) with
    | none => rw [ha] at h; simp at h
    | some b => rw [ha] at h; simp at h

/-- A step of a monitor keeps a `true` entry of the registry. -/
theorem monitorStep_keeps_banned (env : Env) (m : Monitor) (s : State) (e : String)
    (hb : s.bannedUsers.index false e = true) :
    (monitorStep env m s).2.1.bannedUsers.index false e = true := by
  rcases monitorStep_registry env m s e with h | ⟨h, _⟩
  · simpa [GoMap.index, h] using hb
  · simp [GoMap.index, h]

/-- Once `e` reads `true` in the registry, a monitor that is not in flight on
`e` is not in flight on `e` after its step. -/
theorem monitorStep_not_inFlight (env : Env) (m : Monitor) (s : State) (e : String)
    (hb : s.bannedUsers.index false e = true) (hq : m.phase.inFlight e = false) :
    (monitorStep env m s).1.phase.inFlight e = false := by
  obtain ⟨name, mcfg, phase⟩ := m
  cases phase with
  | top => unfold monitorStep; simp only; split_ifs <;> rfl
  | fetch =>
    unfold monitorStep
    simp only
    cases fetchClientStats (env.listResponse s.clock) mcfg with
    | none => rfl
    | some p => rfl
  | range uuidMap rest =>
    cases rest with
    | nil => rfl
    | cons x xs =>
      unfold monitorStep
      simp only
      by_cases hs : (!x.Enable || s.bannedUsers.index false x.Email) = true
      · rw [if_pos hs]; rfl
      · rw [if_neg hs]
        simp only [Phase.inFlight, decide_eq_false_iff_not]
        intro hx
        rw [hx, hb] at hs
        simp at hs
  | measure uuidMap x rest =>
    have hx : decide (x.Email = e) = false := hq
    unfold monitorStep
    simp only
    split_ifs
    · rfl
    · exact hx
    · rfl
  | call uuidMap uuid x rest => unfold monitorStep; simp only; split_ifs <;> rfl
  | register uuidMap uuid x rest =>
    unfold monitorStep
    simp only
    cases s.bannedUsers.assign x.Email true <;> rfl
  | save uuidMap uuid x rest => rfl
  | restart uuidMap uuid x rest => rfl
  | spawn uuidMap uuid x rest => rfl
  | record uuidMap x rest =>
    unfold monitorStep
    simp only
    cases s.prev.assign (ledgerKey name x.Email x.ID) (add64 x.Up x.Down) <;> rfl

theorem spawned_not_inFlight (e : String) (evs : List Event) :
    ∀ t ∈ spawned evs, t.inFlight e = false := by
  induction evs with
  | nil => simp [spawned]
  | cons ev rest ih =>
    intro t ht
    cases ev <;> simp only [spawned, List.mem_cons] at ht
    all_goals first
      | exact ih t ht
      | (rcases ht with ht | ht
         · subst ht; rfl
         · exact ih t ht)

theorem threadStep_quiet (env : Env) (t : Thread) (s : State) (e : String)
    (hb : s.bannedUsers.index false e = true) (hq : t.inFlight e = false) :
    (threadStep env t s).1.inFlight e = false ∧
    (threadStep env t s).2.1.bannedUsers.index false e = true ∧
    (∀ cfg u c ok, Event.changeClientEnable cfg u c false ok ∈ (threadStep env t s).2.2 →
      c.Email ≠ e) := by
  cases t with
  | monitor m =>
    refine ⟨monitorStep_not_inFlight env m s e hb hq, monitorStep_keeps_banned env m s e hb, ?_⟩
    intro cfg u c ok hmem
    obtain ⟨um, rest, hp⟩ := monitorStep_disable_only_at_call env m s cfg u c ok hmem
    have hq' : m.phase.inFlight e = false := hq
    rw [hp] at hq'
    simpa [Phase.inFlight] using hq'
  | restore cfg u cc n =>
    refine ⟨?_, ?_, ?_⟩
    · match n with
      | 0 => rfl
      | 1 => rfl
      | 2 => rfl
      | n + 3 => rfl
    · rw [restoreStep_bannedUsers]; exact hb
    · intro cfg1 u1 c1 ok hmem
      match n with
      | 0 => simp [threadStep] at hmem
      | 1 => simp [threadStep] at hmem
      | 2 => simp [threadStep] at hmem
      | n + 3 => simp [threadStep] at hmem

theorem sysStep_quiet (env : Env) (i : Nat) (sys : System) (e : String)
    (hb : sys.shared.bannedUsers.index false e = true)
    (hq : ∀ t ∈ sys.threads, t.inFlight e = false) :
    (sysStep env i sys).1.shared.bannedUsers.index false e = true ∧
    (∀ t ∈ (sysStep env i sys).1.threads, t.inFlight e = false) ∧
    (∀ cfg u c ok, Event.changeClientEnable cfg u c false ok ∈ (sysStep env i sys).2 →
      c.Email ≠ e) := by
  unfold sysStep
  by_cases hc : sys.shared.crashed = true
  · rw [if_pos hc]
    exact ⟨hb, hq, by simp⟩
  · rw [if_neg hc]
    cases ht : sys.threads[i]? with
    | none => exact ⟨hb, hq, by simp⟩
    | some t =>
      have hmem : t ∈ sys.threads := List.getElem?_mem ht
      obtain ⟨h1, h2, h3⟩ := threadStep_quiet env t sys.shared e hb (hq t hmem)
      refine ⟨h2, ?_, h3⟩
      intro t' ht'
      simp only at ht'
      rcases List.mem_append.1 ht' with ht' | ht'
      · rcases List.mem_or_eq_of_mem_set ht' with ht' | ht'
        · exact hq t' ht'
        · rw [ht']; exact h1
      · exact spawned_not_inFlight e _ t' ht'

theorem runSchedule_quiet (env : Env) (sched : List Nat) (sys : System) (e : String)
    (hb : sys.shared.bannedUsers.index false e = true)
    (hq : ∀ t ∈ sys.threads, t.inFlight e = false) :
    (runSchedule env sched sys).1.shared.bannedUsers.index false e = true ∧
    (∀ t ∈ (runSchedule env sched sys).1.threads, t.inFlight e = false) ∧
    (∀ cfg u c ok, Event.changeClientEnable cfg u c false ok ∈ (runSchedule env sched sys).2 →
      c.Email ≠ e) := by
  induction sched generalizing sys with
  | nil => exact ⟨hb, hq, by simp [runSchedule]⟩
  | cons i rest ih =>
    obtain ⟨h1, h2, h3⟩ := sysStep_quiet env i sys e hb hq
    obtain ⟨k1, k2, k3⟩ := ih (sysStep env i sys).1 h1 h2
    simp only [runSchedule]
    refine ⟨k1, k2, ?_⟩
    intro cfg u c ok hmem
    rcases List.mem_append.1 hmem with hmem | hmem
    · exact h3 cfg u c ok hmem
    · exact k3 cfg u c ok hmem

theorem runSchedule_crashed (env : Env) (sched : List Nat) (sys : System)
    (h : sys.shared.crashed = true) : runSchedule env sched sys = (sys, []) := by
  induction sched with
  | nil => rfl
  | cons i rest ih => simp [runSchedule, sysStep, h, ih]

/-- From the statement of line 296 of a monitor whose disable call returned
without error, with no monitor in flight on the email: no disable call for
that email under any schedule that starts with that statement. -/
theorem runSchedule_after_register (env : Env) (i : Nat) (sched : List Nat) (sys : System)
    (name : String) (cfg : ServerConfig) (uuidMap : GoMap String) (uuid : String)
    (c : ClientStat) (rest : List ClientStat)
    (ht : sys.threads[i]? = some (Thread.monitor
      { name := name, cfg := cfg, phase := Phase.register uuidMap uuid c rest }))
    (hq : ∀ t ∈ sys.threads, t.inFlight c.Email = false) :
    ∀ cfg1 u1 c1 ok, Event.changeClientEnable cfg1 u1 c1 false ok ∈
      (runSchedule env (i :: sched) sys).2 → c1.Email ≠ c.Email := by
  intro cfg1 u1 c1 ok hmem
  by_cases hc : sys.shared.crashed = true
  · rw [runSchedule_crashed env _ sys hc] at hmem
    simp at hmem
  · cases hn : sys.shared.bannedUsers.isNil with
    | true =>
      have hstep : sysStep env i sys =
          ({ shared := { sys.shared with crashed := true },
             threads := sys.threads.set i (Thread.monitor
               { name := name, cfg := cfg, phase := Phase.register uuidMap uuid c rest }) },
            [Event.logBanned name c.Email, Event.panic]) := by
        simp [sysStep, hc, ht, threadStep, monitorStep, GoMap.assign, hn, spawned]
      simp only [runSchedule, hstep] at hmem
      rw [runSchedule_crashed env sched _ rfl] at hmem
      simp at hmem
    | false =>
      have hstep : sysStep env i sys =
          ({ shared := { sys.shared with
               bannedUsers := sys.shared.bannedUsers.put c.Email true },
             threads := sys.threads.set i (Thread.monitor
               { name := name, cfg := cfg, phase := Phase.save uuidMap uuid c rest }) },
            [Event.logBanned name c.Email]) := by
        simp [sysStep, hc, ht, threadStep, monitorStep, GoMap.assign, hn, spawned]
      simp only [runSchedule, hstep] at hmem
      rcases List.mem_append.1 hmem with hm | hm
      · simp at hm
      · refine (runSchedule_quiet env sched _ c.Email ?_ ?_).2.2 cfg1 u1 c1 ok hm
        · exact GoMap.index_put_self _ _ _ _ hn
        · intro t htm
          rcases List.mem_or_eq_of_mem_set htm with htm | htm
          · exact hq t htm
          · rw [htm]; rfl

/-- C4, as the code has it: under every schedule of the monitors and restore
goroutines, with any panel answers, from any state in which an email reads
`true` in `bannedUsers` and no monitor stands between its test of line 278 and
its disable call of line 292 on an entry with that email: no disable call is
issued for that email, the email keeps reading `true` and no monitor gets in
flight on it.  In particular, from the registry write of line 296 that
follows a disable call without error, no disable call is issued for that
email unless a monitor was in flight on it at that moment.  That write
records the email when the registry is an allocated map, and a monitor issues
a disable call only from line 292, for the entry it holds in flight. -/
theorem C4_no_disable_once_recorded (env : Env) (sched : List Nat) (sys : System) (e : String)
    (hb : sys.shared.bannedUsers.index false e = true)
    (hq : ∀ t ∈ sys.threads, t.inFlight e = false) :
    (∀ cfg u c ok, Event.changeClientEnable cfg u c false ok ∈ (runSchedule env sched sys).2 →
      c.Email ≠ e) ∧
    (runSchedule env sched sys).1.shared.bannedUsers.index false e = true ∧
    (∀ t ∈ (runSchedule env sched sys).1.threads, t.inFlight e = false) ∧
    (∀ (i : Nat) (sched2 : List Nat) (sys2 : System) (name : String) (cfg : ServerConfig)
        (uuidMap : GoMap String) (uuid : String) (c : ClientStat) (rest : List ClientStat),
      sys2.threads[i]? = some (Thread.monitor
        { name := name, cfg := cfg, phase := Phase.register uuidMap uuid c rest }) →
      (∀ t ∈ sys2.threads, t.inFlight c.Email = false) →
      ∀ cfg1 u1 c1 ok, Event.changeClientEnable cfg1 u1 c1 false ok ∈
        (runSchedule env (i :: sched2) sys2).2 → c1.Email ≠ c.Email) ∧
    (∀ (m : Monitor) (uuidMap : GoMap String) (uuid : String) (c : ClientStat)
        (rest : List ClientStat) (s : State),
      m.phase = Phase.register uuidMap uuid c rest → s.bannedUsers.isNil = false →
      (monitorStep env m s).2.1.bannedUsers.index false c.Email = true) ∧
    (∀ (m : Monitor) (s : State) cfg u c ok,
      Event.changeClientEnable cfg u c false ok ∈ (monitorStep env m s).2.2 →
      ∃ uuidMap rest, m.phase = Phase.call uuidMap u c rest) := by
  obtain ⟨h1, h2, h3⟩ := runSchedule_quiet env sched sys e hb hq
  refine ⟨h3, h1, h2, ?_, ?_, fun m s cfg u c ok h =>
    monitorStep_disable_only_at_call env m s cfg u c ok h⟩
  · intro i sched2 sys2 name cfg uuidMap uuid c rest ht hq2
    exact runSchedule_after_register env i sched2 sys2 name cfg uuidMap uuid c rest ht hq2
  · intro m uuidMap uuid c rest s hp hn
    obtain ⟨name, mcfg, phase⟩ := m
    simp only at hp
    subst hp
    unfold monitorStep
    simp only [GoMap.assign_of_alloc _ _ _ hn]
    exact GoMap.index_put_self _ _ _ _ hn

/-- C4, as stated, fails when two monitors overlap: the monitors of `s1` and
`s2` both pass the test of line 278 on `alice`; the disable call of `s1`
succeeds (event 10) and its registry write runs (event 11, after which the
registry holds `alice`); the monitor of `s2`, already past the test, then
issues a disable call for the same email (event 14). -/
theorem C4_counterexample :
    (runSchedule raceEnv raceSchedule raceSystem).2[10]? =
      some (Event.changeClientEnable sampleCfg "uuid-a" (sampleStat "alice" 20971520 0)
        false true) ∧
    (runSchedule raceEnv raceSchedule raceSystem).2[11]? =
      some (Event.logBanned "s1" "alice") ∧
    (runSchedule raceEnv raceSchedule raceSystem).2[14]? =
      some (Event.changeClientEnable sampleCfg2 "uuid-a" (sampleStat "alice" 20971520 0)
        false true) ∧
    10 < 14 ∧
    (sampleStat "alice" 20971520 0).Email = (sampleStat "alice" 20971520 0).Email ∧
    (runSchedule raceEnv [0, 0, 1, 1, 0, 1, 0, 0, 0] raceSystem).1.shared.bannedUsers.index
      false "alice" = true ∧
    raceSchedule = [0, 0, 1, 1, 0, 1, 0, 0, 0] ++ [1, 1] := by
  decide

/-! ## The uninterrupted poll iteration is the monitor left alone -/

theorem monitorSteps_crashed (env : Env) (n : Nat) (m : Monitor) (s : State)
    (h : s.crashed = true) : monitorSteps env n m s = (m, s, []) := by
  cases n with
  | zero => rfl
  | succ n => simp [monitorSteps, h]

theorem monitorSteps_succ (env : Env) (n : Nat) (m : Monitor) (s : State)
    (h : s.crashed = false) :
    monitorSteps env (n + 1) m s =
      ((monitorSteps env n (monitorStep env m s).1 (monitorStep env m s).2.1).1,
        (monitorSteps env n (monitorStep env m s).1 (monitorStep env m s).2.1).2.1,
        (monitorStep env m s).2.2 ++
          (monitorSteps env n (monitorStep env m s).1 (monitorStep env m s).2.1).2.2) := by
  simp [monitorSteps, h]

theorem monitorSteps_add (env : Env) (a b : Nat) (m : Monitor) (s : State) :
    monitorSteps env (a + b) m s =
      ((monitorSteps env b (monitorSteps env a m s).1 (monitorSteps env a m s).2.1).1,
        (monitorSteps env b (monitorSteps env a m s).1 (monitorSteps env a m s).2.1).2.1,
        (monitorSteps env a m s).2.2 ++
          (monitorSteps env b (monitorSteps env a m s).1 (monitorSteps env a m s).2.1).2.2) := by
  induction a generalizing m s with
  | zero => simp [monitorSteps]
  | succ a ih =>
    by_cases hc : s.crashed = true
    · rw [monitorSteps_crashed env _ m s hc, monitorSteps_crashed env _ m s hc]
      simp only [monitorSteps_crashed env b m s hc, List.append_nil]
    · have hl : s.crashed = false := by simpa using hc
      have hab : a + 1 + b = (a + b) + 1 := by omega
      rw [hab, monitorSteps_succ env (a + b) m s hl, monitorSteps_succ env a m s hl, ih]
      simp only [List.append_assoc]

theorem Reaches.refl (env : Env) (m : Monitor) (s : State) : Reaches env m s m s [] :=
  ⟨0, rfl⟩

theorem Reaches.trans {env : Env} {m m1 m2 : Monitor} {s s1 s2 : State} {e1 e2 : List Event}
    (h1 : Reaches env m s m1 s1 e1) (h2 : Reaches env m1 s1 m2 s2 e2) :
    Reaches env m s m2 s2 (e1 ++ e2) := by
  obtain ⟨a, ha⟩ := h1
  obtain ⟨b, hb⟩ := h2
  exact ⟨a + b, by rw [monitorSteps_add, ha]; simp only [hb]⟩

/-- The steps of a monitor on one entry, left alone, do what `processEntry`
does. -/
theorem processEntry_refines (env : Env) (name : String) (cfg : ServerConfig)
    (uuidMap : GoMap String) (c : ClientStat) (rest : List ClientStat) (s : State)
    (hlive : s.crashed = false) :
    ∃ m', Reaches env { name := name, cfg := cfg, phase := Phase.range uuidMap (c :: rest) } s
        m' (processEntry env name cfg uuidMap s c).1 (processEntry env name cfg uuidMap s c).2 ∧
      ((processEntry env name cfg uuidMap s c).1.crashed = false →
        m' = { name := name, cfg := cfg, phase := Phase.range uuidMap rest }) := by
  by_cases hskip : c.Enable = false ∨ s.bannedUsers.index false c.Email = true
  · rw [processEntry_skip env name cfg uuidMap s c hskip]
    refine ⟨_, ⟨1, ?_⟩, fun _ => rfl⟩
    rcases hskip with h | h <;> simp [monitorSteps, monitorStep, hlive, h]
  · obtain ⟨hen, hnb⟩ := evaluated_of_not_skip hskip
    rw [processEntry_eval env name cfg uuidMap s c hen hnb]
    by_cases hd : entryDelta name s.prev c > env.thresholdBytes
    · rw [if_pos hd]
      by_cases hu : uuidMap.index "" c.Email = ""
      · refine ⟨(monitorSteps env 3
          { name := name, cfg := cfg, phase := Phase.range uuidMap (c :: rest) } s).1,
          ⟨3, ?_⟩, ?_⟩ <;>
        cases hp : s.prev.isNil <;>
        simp [monitorSteps, monitorStep, banPolicy, recordTotal, GoMap.assign, hlive, hen,
          hnb, hd, hu, hp]
      · by_cases hok : env.changeOk s.clock = false
        · refine ⟨(monitorSteps env 5
            { name := name, cfg := cfg, phase := Phase.range uuidMap (c :: rest) } s).1,
            ⟨5, ?_⟩, ?_⟩ <;>
          cases hp : s.prev.isNil <;>
          simp [monitorSteps, monitorStep, banPolicy, recordTotal, GoMap.assign, hlive, hen,
            hnb, hd, hu, hok, hp]
        · have hok' : env.changeOk s.clock = true := by simpa using hok
          cases hr : s.bannedUsers.isNil with
          | true =>
            refine ⟨(monitorSteps env 4
              { name := name, cfg := cfg, phase := Phase.range uuidMap (c :: rest) } s).1,
              ⟨4, ?_⟩, ?_⟩ <;>
            simp [monitorSteps, monitorStep, banPolicy, recordTotal, GoMap.assign, hlive, hen,
              hnb, hd, hu, hok', hr]
          | false =>
            refine ⟨(monitorSteps env 8
              { name := name, cfg := cfg, phase := Phase.range uuidMap (c :: rest) } s).1,
              ⟨8, ?_⟩, ?_⟩ <;>
            cases hp : s.prev.isNil <;>
            simp [monitorSteps, monitorStep, banPolicy, recordTotal, GoMap.assign, hlive,
              hen, hnb, hd, hu, hok', hr, hp]
    · rw [if_neg hd]
      refine ⟨(monitorSteps env 3
        { name := name, cfg := cfg, phase := Phase.range uuidMap (c :: rest) } s).1,
        ⟨3, ?_⟩, ?_⟩ <;>
      cases hp : s.prev.isNil <;>
      simp [monitorSteps, monitorStep, recordTotal, GoMap.assign, hlive, hen, hnb, hd, hp]

/-- The steps of a monitor on a list of entries, left alone, do what
`processStats` does. -/
theorem processStats_refines (env : Env) (name : String) (cfg : ServerConfig)
    (uuidMap : GoMap String) (stats : List ClientStat) (s : State)
    (hlive : s.crashed = false) :
    ∃ m', Reaches env { name := name, cfg := cfg, phase := Phase.range uuidMap stats } s
        m' (processStats env name cfg uuidMap s stats).1
        (processStats env name cfg uuidMap s stats).2 ∧
      ((processStats env name cfg uuidMap s stats).1.crashed = false →
        m' = { name := name, cfg := cfg, phase := Phase.range uuidMap [] }) := by
  induction stats generalizing s with
  | nil => exact ⟨_, Reaches.refl env _ s, fun _ => rfl⟩
  | cons c cs ih =>
    obtain ⟨m1, hr1, hm1⟩ := processEntry_refines env name cfg uuidMap c cs s hlive
    rw [processStats_cons]
    by_cases hc : (processEntry env name cfg uuidMap s c).1.crashed = true
    · rw [if_pos hc]
      refine ⟨m1, hr1, fun h => ?_⟩
      rw [hc] at h
      exact absurd h (by decide)
    · rw [if_neg hc]
      have hl : (processEntry env name cfg uuidMap s c).1.crashed = false := by simpa using hc
      obtain ⟨m2, hr2, hm2⟩ := ih (processEntry env name cfg uuidMap s c).1 hl
      rw [hm1 hl] at hr1
      exact ⟨m2, hr1.trans hr2, hm2⟩

/-- The poll iteration executed without interruption is the monitor left
alone from the top of its loop, back to the top of its loop unless the
process dies. -/
theorem pollIteration_refines (env : Env) (name : String) (cfg : ServerConfig) (s : State)
    (hlive : s.crashed = false) :
    ∃ m', Reaches env { name := name, cfg := cfg, phase := Phase.top } s
        m' (pollIteration env name cfg s).1 (pollIteration env name cfg s).2 ∧
      ((pollIteration env name cfg s).1.crashed = false →
        m' = { name := name, cfg := cfg, phase := Phase.top }) := by
  unfold pollIteration
  by_cases hl : env.loginOk s.clock = false
  · rw [if_pos hl]
    refine ⟨_, ⟨1, ?_⟩, fun _ => rfl⟩
    simp [monitorSteps, monitorStep, hlive, hl]
  · rw [if_neg hl]
    cases hf : fetchClientStats (env.listResponse (s.clock + 1)) cfg with
    | none =>
      refine ⟨_, ⟨2, ?_⟩, fun _ => rfl⟩
      simp [monitorSteps, monitorStep, hlive, hl, hf]
    | some p =>
      obtain ⟨stats, settingsJSON⟩ := p
      simp only
      have hhead : Reaches env { name := name, cfg := cfg, phase := Phase.top } s
          { name := name, cfg := cfg,
            phase := Phase.range (buildUUIDMap env name settingsJSON).1 stats }
          { s with clock := s.clock + 2 }
          ([Event.login cfg true, Event.fetchClientStats cfg true] ++
            (buildUUIDMap env name settingsJSON).2) :=
        ⟨2, by simp [monitorSteps, monitorStep, hlive, hl, hf]⟩
      obtain ⟨m2, hr2, hm2⟩ := processStats_refines env name cfg
        (buildUUIDMap env name settingsJSON).1 stats { s with clock := s.clock + 2 } hlive
      by_cases hc : (processStats env name cfg (buildUUIDMap env name settingsJSON).1
          { s with clock := s.clock + 2 } stats).1.crashed = true
      · rw [if_pos hc]
        refine ⟨m2, hhead.trans hr2, fun h => ?_⟩
        simp only at h
        rw [hc] at h
        exact absurd h (by decide)
      · rw [if_neg hc]
        have hl2 : (processStats env name cfg (buildUUIDMap env name settingsJSON).1
            { s with clock := s.clock + 2 } stats).1.crashed = false := by simpa using hc
        rw [hm2 hl2] at hr2
        have htail : Reaches env
            { name := name, cfg := cfg,
              phase := Phase.range (buildUUIDMap env name settingsJSON).1 [] }
            (processStats env name cfg (buildUUIDMap env name settingsJSON).1
              { s with clock := s.clock + 2 } stats).1
            { name := name, cfg := cfg, phase := Phase.top }
            (processStats env name cfg (buildUUIDMap env name settingsJSON).1
              { s with clock := s.clock + 2 } stats).1
            [Event.savePrevUsage, Event.sleep env.intervalSeconds] :=
          ⟨1, by simp [monitorSteps, monitorStep, hl2]⟩
        exact ⟨_, (hhead.trans hr2).trans htail, fun _ => rfl⟩

/-! ## The ledger key -/

theorem digitChar_toNat {d : Nat} (h : d < 10) : (Nat.digitChar d).toNat = 48 + d := by
  interval_cases d <;> rfl

theorem digitChar_injOn {d1 d2 : Nat} (h1 : d1 < 10) (h2 : d2 < 10)
    (h : Nat.digitChar d1 = Nat.digitChar d2) : d1 = d2 := by
  have := congrArg Char.toNat h
  rw [digitChar_toNat h1, digitChar_toNat h2] at this
  omega

theorem decimalDigitsAux_eq (fuel : Nat) : ∀ (n : Nat) (acc : List Char), n < fuel →
    decimalDigitsAux fuel n acc =
      (if n = 0 then ['0'] else ((Nat.digits 10 n).reverse).map Nat.digitChar) ++ acc := by
  induction fuel with
  | zero => intro n acc h; omega
  | succ fuel ih =>
    intro n acc h
    unfold decimalDigitsAux
    by_cases h10 : n < 10
    · rw [if_pos h10]
      by_cases h0 : n = 0
      · subst h0; rfl
      · rw [if_neg h0, Nat.digits_of_lt 10 n h0 h10]
        rfl
    · rw [if_neg h10]
      have hn0 : n ≠ 0 := by omega
      have hq0 : n / 10 ≠ 0 := by omega
      have hdig : Nat.digits 10 n = (n % 10) :: Nat.digits 10 (n / 10) :=
        Nat.digits_def' (by decide) (by omega)
      rw [ih (n / 10) _ (by omega), if_neg hq0, if_neg hn0, hdig]
      simp

theorem decimalDigits_eq (n : Nat) :
    decimalDigits n =
      if n = 0 then ['0'] else ((Nat.digits 10 n).reverse).map Nat.digitChar := by
  unfold decimalDigits
  rw [decimalDigitsAux_eq (n + 1) n [] (by omega), List.append_nil]

theorem decimalDigits_toNat (n : Nat) (ch : Char) (h : ch ∈ decimalDigits n) :
    48 ≤ ch.toNat ∧ ch.toNat ≤ 57 := by
  rw [decimalDigits_eq] at h
  by_cases h0 : n = 0
  · rw [if_pos h0] at h
    simp at h
    subst h
    decide
  · rw [if_neg h0] at h
    simp only [List.mem_map, List.mem_reverse] at h
    obtain ⟨d, hd, rfl⟩ := h
    have := Nat.digits_lt_base (by decide : 1 < 10) hd
    rw [digitChar_toNat this]
    omega

theorem decimalDigits_injective {n m : Nat} (h : decimalDigits n = decimalDigits m) : n = m := by
  have key : ∀ a b : Nat, a ≠ 0 →
      ((Nat.digits 10 a).reverse).map Nat.digitChar =
        (if b = 0 then ['0'] else ((Nat.digits 10 b).reverse).map Nat.digitChar) → a = b := by
    intro a b ha hab
    have hinj : ∀ l1 l2 : List Nat, (∀ d ∈ l1, d < 10) → (∀ d ∈ l2, d < 10) →
        l1.map Nat.digitChar = l2.map Nat.digitChar → l1 = l2 := by
      intro l1
      induction l1 with
      | nil => intro l2 _ _ h; cases l2 with
        | nil => rfl
        | cons x xs => simp at h
      | cons y ys ih =>
        intro l2 h1 h2 h
        cases l2 with
        | nil => simp at h
        | cons x xs =>
          simp only [List.map_cons, List.cons.injEq] at h
          rw [digitChar_injOn (h1 y (by simp)) (h2 x (by simp)) h.1,
            ih xs (fun d hd => h1 d (by simp [hd])) (fun d hd => h2 d (by simp [hd])) h.2]
    by_cases hb : b = 0
    · rw [if_pos hb] at hab
      have h0 : ((Nat.digits 10 a).reverse) = [0] := by
        apply hinj
        · intro d hd
          exact Nat.digits_lt_base (by decide) (List.mem_reverse.1 hd)
        · simp
        · rw [hab]; rfl
      have hlast := Nat.getLast_digit_ne_zero 10 ha
      have hrev : Nat.digits 10 a = [0] := by
        have := congrArg List.reverse h0
        simpa using this
      simp [hrev] at hlast
    · rw [if_neg hb] at hab
      have := hinj _ _
        (fun d hd => Nat.digits_lt_base (by decide) (List.mem_reverse.1 hd))
        (fun d hd => Nat.digits_lt_base (by decide) (List.mem_reverse.1 hd)) hab
      exact Nat.digits.injective 10 (List.reverse_injective this)
  rw [decimalDigits_eq n, decimalDigits_eq m] at h
  by_cases hn : n = 0
  · by_cases hm : m = 0
    · rw [hn, hm]
    · rw [if_pos hn, if_neg hm] at h
      have := key m n hm (by rw [if_pos hn]; exact h.symm)
      exact this.symm
  · rw [if_neg hn] at h
    exact key n m hn h

theorem formatInt_not_mem_bar (i : Int) : '|' ∉ formatInt i := by
  intro h
  unfold formatInt at h
  have hd : '|' ∉ decimalDigits i.natAbs := by
    intro hmem
    have := decimalDigits_toNat _ _ hmem
    have h124 : ('|' : Char).toNat = 124 := by decide
    omega
  split_ifs at h
  · simp only [List.mem_cons] at h
    rcases h with h | h
    · exact absurd h (by decide)
    · exact hd h
  · exact hd h

theorem formatInt_injective {i j : Int} (h : formatInt i = formatInt j) : i = j := by
  have hminus : ∀ (n : Nat) (l : List Char), '-' :: l ≠ decimalDigits n := by
    intro n l hl
    have hmem : '-' ∈ decimalDigits n := by rw [← hl]; simp
    have := decimalDigits_toNat _ _ hmem
    have h45 : ('-' : Char).toNat = 45 := by decide
    omega
  unfold formatInt at h
  by_cases hi : i < 0
  · by_cases hj : j < 0
    · rw [if_pos hi, if_pos hj] at h
      have := decimalDigits_injective (List.cons.inj h).2
      omega
    · rw [if_pos hi, if_neg hj] at h
      exact absurd h (hminus _ _)
  · by_cases hj : j < 0
    · rw [if_neg hi, if_pos hj] at h
      exact absurd h.symm (hminus _ _)
    · rw [if_neg hi, if_neg hj] at h
      have := decimalDigits_injective h
      omega

theorem split_at_first {α : Type} {a : α} : ∀ {p1 p2 q1 q2 : List α}, a ∉ p1 → a ∉ p2 →
    p1 ++ a :: q1 = p2 ++ a :: q2 → p1 = p2 ∧ q1 = q2 := by
  intro p1
  induction p1 with
  | nil =>
    intro p2 q1 q2 _ h2 h
    cases p2 with
    | nil => exact ⟨rfl, (List.cons.inj h).2⟩
    | cons x xs =>
      have := (List.cons.inj h).1
      subst this
      simp at h2
  | cons y ys ih =>
    intro p2 q1 q2 h1 h2 h
    cases p2 with
    | nil =>
      have := (List.cons.inj h).1
      subst this
      simp at h1
    | cons x xs =>
      have hx := (List.cons.inj h).1
      have ht := (List.cons.inj h).2
      have := ih (fun hm => h1 (List.mem_cons_of_mem _ hm))
        (fun hm => h2 (List.mem_cons_of_mem _ hm)) ht
      exact ⟨by rw [hx, this.1], this.2⟩

theorem split_at_last {α : Type} {a : α} {p1 p2 q1 q2 : List α} (h1 : a ∉ q1) (h2 : a ∉ q2)
    (h : p1 ++ a :: q1 = p2 ++ a :: q2) : p1 = p2 ∧ q1 = q2 := by
  have hr := congrArg List.reverse h
  simp only [List.reverse_append, List.reverse_cons, List.append_assoc, List.singleton_append]
    at hr
  have := split_at_first (fun hm => h1 (List.mem_reverse.1 hm))
    (fun hm => h2 (List.mem_reverse.1 hm)) hr
  exact ⟨List.reverse_injective this.2, List.reverse_injective this.1⟩

theorem ledgerKey_split {n1 n2 e1 e2 : String} {i1 i2 : Int}
    (h : ledgerKey n1 e1 i1 = ledgerKey n2 e2 i2) :
    n1.data ++ '|' :: e1.data = n2.data ++ '|' :: e2.data ∧ i1 = i2 := by
  unfold ledgerKey at h
  have hl := congrArg String.data h
  have hl2 : (n1.data ++ '|' :: e1.data) ++ '|' :: formatInt i1 =
      (n2.data ++ '|' :: e2.data) ++ '|' :: formatInt i2 := by
    simpa using hl
  have := split_at_last (formatInt_not_mem_bar i1) (formatInt_not_mem_bar i2) hl2
  exact ⟨this.1, formatInt_injective this.2⟩

/-- C8, as the code has it: equal ledger keys always have the same numeric ID and
the same text `name|email`; the server name and the account identifier are
recovered separately as soon as the bar character occurs in neither account
identifier, or in neither server name. -/
theorem C8_ledgerKey_injective (n1 n2 e1 e2 : String) (i1 i2 : Int)
    (h : ledgerKey n1 e1 i1 = ledgerKey n2 e2 i2) :
    i1 = i2 ∧
    n1.data ++ '|' :: e1.data = n2.data ++ '|' :: e2.data ∧
    ((('|' ∉ e1.data ∧ '|' ∉ e2.data) ∨ ('|' ∉ n1.data ∧ '|' ∉ n2.data)) →
      n1 = n2 ∧ e1 = e2) := by
  obtain ⟨hne, hi⟩ := ledgerKey_split h
  refine ⟨hi, hne, ?_⟩
  intro hbar
  have hdata : n1.data = n2.data ∧ e1.data = e2.data := by
    rcases hbar with ⟨hb1, hb2⟩ | ⟨hb1, hb2⟩
    · exact split_at_last hb1 hb2 hne
    · exact split_at_first hb1 hb2 hne
  exact ⟨String.ext hdata.1, String.ext hdata.2⟩

/-- C8, as stated, fails: the servers `a|b` and `a` share the ledger entry of
the accounts `c` and `b|c` with numeric ID 1. -/
theorem C8_counterexample :
    ledgerKey "a|b" "c" 1 = ledgerKey "a" "b|c" 1 ∧
    ¬ (("a|b" : String) = "a" ∧ ("c" : String) = "b|c" ∧ (1 : Int) = 1) := by
  constructor
  · decide
  · decide

/-- C6, as stated, fails on the nil ledger that `loadPrevUsage` returns for a
`prev_usage.json` holding `null`: the cycle logs in, fetches, fails to parse
the settings, measures the enabled, non-banned account `alice` and panics at
line 307, so her ledger entry is not set and the ledger is not saved. -/
theorem C6_counterexample :
    (sampleEnv none [sampleStat "alice" 20971520 0] true).loginOk nilLedgerState.clock = true ∧
    fetchClientStats
      ((sampleEnv none [sampleStat "alice" 20971520 0] true).listResponse
        (nilLedgerState.clock + 1)) sampleCfg = some ([sampleStat "alice" 20971520 0], "x") ∧
    (sampleEnv none [sampleStat "alice" 20971520 0] true).unmarshalSettings "x" = none ∧
    (sampleStat "alice" 20971520 0).Enable = true ∧
    nilLedgerState.bannedUsers.index false (sampleStat "alice" 20971520 0).Email = false ∧
    (pollIteration (sampleEnv none [sampleStat "alice" 20971520 0] true) "srv" sampleCfg
      nilLedgerState).2 =
        [Event.login sampleCfg true, Event.fetchClientStats sampleCfg true,
         Event.logParseErr "srv", Event.logDelta "srv" "alice" 7 20971520,
         Event.logExceeded "srv" "alice", Event.logNoUUID "srv" "alice", Event.panic] ∧
    (pollIteration (sampleEnv none [sampleStat "alice" 20971520 0] true) "srv" sampleCfg
      nilLedgerState).1.prev.index 0 (ledgerKey "srv" "alice" 7) ≠ add64 20971520 0 := by
  decide

/-! ## Concrete instances -/

/-- C1 at the ledger entry 5 and the totals 3 + 4: the delta is 2 and the entry becomes 7. -/
theorem C1_witness :
    (sampleStat "alice" 3 4).Enable = true ∧
    (ledgerState 5).bannedUsers.index false (sampleStat "alice" 3 4).Email = false ∧
    3 + 4 < 2 ^ 64 ∧
    (ledgerState 5).prev.index 0 (ledgerKey "srv" "alice" 7) ≤ 3 + 4 ∧
    (ledgerState 5).prev.isNil = false ∧
    (ledgerState 5).bannedUsers.isNil = false ∧
    entryDelta "srv" (ledgerState 5).prev (sampleStat "alice" 3 4) = 3 + 4 - 5 ∧
    (processEntry (sampleEnv none [] true) "srv" sampleCfg GoMap.empty (ledgerState 5)
      (sampleStat "alice" 3 4)).1.prev.index 0 (ledgerKey "srv" "alice" 7) = 3 + 4 :=
  have h := C1_delta_and_ledger (sampleEnv none [] true) "srv" sampleCfg GoMap.empty
    (ledgerState 5) (sampleStat "alice" 3 4) rfl rfl (by decide) (by decide)
  ⟨rfl, rfl, by decide, by decide, rfl, rfl, h.1, (h.2.2 rfl rfl).2.1⟩

/-- C2 on the empty state: 5 MB produces the delta line only, 16 MB then runs the ban block. -/
theorem C2_witness :
    (sampleStat "alice" 5242880 0).Enable = true ∧
    emptyState.bannedUsers.index false (sampleStat "alice" 5242880 0).Email = false ∧
    emptyState.prev.isNil = false ∧
    (processEntry (sampleEnv none [] true) "srv" sampleCfg sampleUUIDs emptyState
      (sampleStat "alice" 5242880 0)).2 = [Event.logDelta "srv" "alice" 7 5242880] ∧
    Event.logExceeded "srv" "alice" ∈
      (processEntry (sampleEnv none [] true) "srv" sampleCfg sampleUUIDs
        (processEntry (sampleEnv none [] true) "srv" sampleCfg sampleUUIDs emptyState
          (sampleStat "alice" 5242880 0)).1 (sampleStat "alice" 16777216 0)).2 :=
  have h := (C2_threshold_strict (sampleEnv none [] true) "srv" sampleCfg sampleUUIDs emptyState
    (sampleStat "alice" 5242880 0) rfl rfl).2.2.2 sampleUUIDs (sampleStat "alice" 16777216 0)
    rfl rfl rfl rfl rfl rfl rfl rfl
  ⟨rfl, rfl, rfl, h.1, h.2.2⟩

/-- C3 at an account that the registry already holds. -/
theorem C3_witness :
    ((sampleStat "alice" 1 2).Enable = false ∨
      bannedState.bannedUsers.index false (sampleStat "alice" 1 2).Email = true) ∧
    (processEntry (sampleEnv none [] true) "srv" sampleCfg sampleUUIDs bannedState
      (sampleStat "alice" 1 2)).2 = [] ∧
    (processEntry (sampleEnv none [] true) "srv" sampleCfg sampleUUIDs bannedState
      (sampleStat "alice" 1 2)).1 = bannedState :=
  have h := C3_skipped_entry_is_noop (sampleEnv none [] true) "srv" sampleCfg sampleUUIDs
    bannedState (sampleStat "alice" 1 2) (Or.inr (by decide))
  ⟨Or.inr (by decide), h.1, h.2.1⟩

/-- C4 on a monitor started with `alice` in the registry while the panel lists
her over the threshold: five steps of the monitor issue no disable call for
her. -/
theorem C4_witness :
    bannedSystem.shared.bannedUsers.index false "alice" = true ∧
    (∀ t ∈ bannedSystem.threads, t.inFlight "alice" = false) ∧
    (∀ cfg u c ok, Event.changeClientEnable cfg u c false ok ∈
      (runSchedule raceEnv [0, 0, 0, 0, 0] bannedSystem).2 → c.Email ≠ "alice") ∧
    (runSchedule raceEnv [0, 0, 0, 0, 0] bannedSystem).1.shared.bannedUsers.index false
      "alice" = true :=
  have h := C4_no_disable_once_recorded raceEnv [0, 0, 0, 0, 0] bannedSystem "alice"
    (by decide) (by decide)
  ⟨by decide, by decide, h.1, h.2.1⟩

/-- C5 at a 20 MB breach of a resolved account, with a disable call that succeeds and one that fails. -/
theorem C5_witness :
    (sampleStat "alice" 20971520 0).Enable = true ∧
    emptyState.bannedUsers.index false (sampleStat "alice" 20971520 0).Email = false ∧
    entryDelta "srv" emptyState.prev (sampleStat "alice" 20971520 0) >
      (sampleEnv none [] true).thresholdBytes ∧
    sampleUUIDs.index "" (sampleStat "alice" 20971520 0).Email ≠ "" ∧
    emptyState.bannedUsers.isNil = false ∧
    (processEntry (sampleEnv none [] true) "srv" sampleCfg sampleUUIDs emptyState
      (sampleStat "alice" 20971520 0)).1.bannedUsers.index false "alice" = true ∧
    (processEntry (sampleEnv none [] false) "srv" sampleCfg sampleUUIDs emptyState
      (sampleStat "alice" 20971520 0)).1.bannedUsers = emptyState.bannedUsers :=
  ⟨rfl, rfl, by decide, by decide, rfl,
    ((C5_ban_policy (sampleEnv none [] true) "srv" sampleCfg sampleUUIDs emptyState
      (sampleStat "alice" 20971520 0) rfl rfl (by decide) (by decide)).1 rfl rfl).2.2,
    ((C5_ban_policy (sampleEnv none [] false) "srv" sampleCfg sampleUUIDs emptyState
      (sampleStat "alice" 20971520 0) rfl rfl (by decide) (by decide)).2 rfl).2⟩

/-- C6 on one poll of a breaching account with a settings blob that does not decode. -/
theorem C6_witness :
    (sampleEnv none [sampleStat "alice" 20971520 0] true).loginOk emptyState.clock = true ∧
    fetchClientStats
      ((sampleEnv none [sampleStat "alice" 20971520 0] true).listResponse
        (emptyState.clock + 1)) sampleCfg = some ([sampleStat "alice" 20971520 0], "x") ∧
    (sampleEnv none [sampleStat "alice" 20971520 0] true).unmarshalSettings "x" = none ∧
    emptyState.prev.isNil = false ∧ emptyState.crashed = false ∧
    (pollIteration (sampleEnv none [sampleStat "alice" 20971520 0] true) "srv" sampleCfg
      emptyState).1.bannedUsers = emptyState.bannedUsers ∧
    (pollIteration (sampleEnv none [sampleStat "alice" 20971520 0] true) "srv" sampleCfg
      emptyState).1.prev.index 0 (ledgerKey "srv" "alice" 7) = add64 20971520 0 :=
  have h := C6_unparsable_settings (sampleEnv none [sampleStat "alice" 20971520 0] true) "srv"
    sampleCfg emptyState [sampleStat "alice" 20971520 0] "x" rfl (by decide) rfl
  ⟨rfl, by decide, rfl, rfl, rfl, h.2.2.1,
    ((h.2.2.2.1 rfl rfl).2.2 [] [] (sampleStat "alice" 20971520 0) rfl rfl rfl).2
      (fun d hd => absurd hd (List.not_mem_nil d))⟩

/-- C8 at the two colliding triples: the numeric IDs and the joined texts agree. -/
theorem C8_witness :
    ledgerKey "a|b" "c" 1 = ledgerKey "a" "b|c" 1 ∧
    (1 : Int) = 1 ∧
    ("a|b" : String).data ++ '|' :: ("c" : String).data =
      ("a" : String).data ++ '|' :: ("b|c" : String).data :=
  have h := C8_ledgerKey_injective "a|b" "a" "c" "b|c" 1 1 (by decide)
  ⟨by decide, h.1, h.2.1⟩

/-- C10 at the recorded total 100 and the new total 0. -/
theorem C10_witness :
    (sampleStat "alice" 0 0).Enable = true ∧
    (ledgerState 100).bannedUsers.index false (sampleStat "alice" 0 0).Email = false ∧
    (ledgerState 100).prev.index 0 (ledgerKey "srv" "alice" 7) < 2 ^ 64 ∧
    add64 0 0 < (ledgerState 100).prev.index 0 (ledgerKey "srv" "alice" 7) ∧
    entryDelta "srv" (ledgerState 100).prev (sampleStat "alice" 0 0) = 2 ^ 64 - 100 ∧
    Event.logExceeded "srv" "alice" ∈
      (processEntry (sampleEnv none [] true) "srv" sampleCfg sampleUUIDs (ledgerState 100)
        (sampleStat "alice" 0 0)).2 :=
  have h := (C10_wrapped_delta (sampleEnv none [] true) "srv" sampleCfg sampleUUIDs
    (ledgerState 100) (sampleStat "alice" 0 0) rfl rfl (by decide) (by decide)).2.2.2.2
    (by decide) rfl (by decide)
  ⟨rfl, rfl, by decide, by decide, h.1, h.2⟩

end Sentinel
